import Mathlib

/-!
# ESP32 Smart LED Controller: a shallow embedding of `main.cpp`

The globals of `src/main.cpp` become one `State` record, the functions
`setMode`, `setup` and `loop` become functions on that record, and every
write to a peripheral (LEDC duty, OLED text, buzzer tone) is appended to an
output trace.  `unsigned long` is 32 bits wide on the ESP32, so timestamps are
reduced modulo `2^32` and differences are taken with wrap-around.  The fade
intensities, computed in floating point by the sketch, are a parameter `fade`
of the model; `FadeTrunc` relates them to the fade formula over the reals.
-/

namespace LedController

/-! ## Constants of the sketch -/

/-- LEDC channel of the buzzer (`CH_BUZZER`). -/
def CH_BUZZER : Nat := 0
/-- LEDC channel of the red LED (`CH_R`). -/
def CH_R : Nat := 1
/-- LEDC channel of the green LED (`CH_G`). -/
def CH_G : Nat := 2
/-- LEDC channel of the yellow LED (`CH_Y`). -/
def CH_Y : Nat := 3

/-- Half period of the alternate blink in milliseconds (`BLINK_GAP`). -/
def BLINK_GAP : Nat := 400
/-- Lock-out after a mode or boot press in milliseconds (`DEBOUNCE_MS`). -/
def DEBOUNCE_MS : Nat := 50
/-- Number of values of an `unsigned long` on the ESP32. -/
def WORD : Nat := 2 ^ 32

/-- Value returned by `millis()` when the real time since boot is `t` ms. -/
def millis (t : Nat) : Nat := t % WORD

/-- Difference `a - b` of two `unsigned long` values, with wrap-around. -/
def sub32 (a b : Nat) : Nat := (a % WORD + WORD - b % WORD) % WORD

/-! ## Modes -/

/-- The enum `LedEffectMode` without its sentinel `EFFECT_TOTAL`. -/
inductive LedEffectMode where
  | EFFECT_OFF
  | EFFECT_ALTERNATE
  | EFFECT_ALL_ON
  | EFFECT_FADE
  deriving DecidableEq

/-- Number of modes (`EFFECT_TOTAL`). -/
def EFFECT_TOTAL : Nat := 4

namespace LedEffectMode

/-- Integer value of an enumerator. -/
def toNat : LedEffectMode → Nat
  | EFFECT_OFF => 0
  | EFFECT_ALTERNATE => 1
  | EFFECT_ALL_ON => 2
  | EFFECT_FADE => 3

/-- The cast `(LedEffectMode) n`.  The sketch only casts values already
reduced modulo `EFFECT_TOTAL`; larger values name no enumerator and are sent
to `EFFECT_OFF` here. -/
def cast : Nat → LedEffectMode
  | 0 => EFFECT_OFF
  | 1 => EFFECT_ALTERNATE
  | 2 => EFFECT_ALL_ON
  | 3 => EFFECT_FADE
  | _ => EFFECT_OFF

end LedEffectMode

open LedEffectMode

/-! ## Peripheral writes -/

/-- The two-line messages passed to `showDisplay` anywhere in the sketch. -/
inductive Msg where
  | systemReady
  | systemReset
  | modeOff
  | modeAlternate
  | modeAllOn
  | modeFade
  | actionLong
  | actionShortOn
  | actionShortOff
  deriving DecidableEq

/-- First argument of `showDisplay` for each message. -/
def Msg.title : Msg → String
  | .systemReady | .systemReset => "System:"
  | .modeOff | .modeAlternate | .modeAllOn | .modeFade => "Mode:"
  | .actionLong | .actionShortOn | .actionShortOff => "Action:"

/-- Second argument of `showDisplay` for each message. -/
def Msg.info : Msg → String
  | .systemReady => "Ready"
  | .systemReset => "Reset"
  | .modeOff => "OFF"
  | .modeAlternate => "Alternate"
  | .modeAllOn => "All ON"
  | .modeFade => "Fade"
  | .actionLong => "Long Press"
  | .actionShortOn => "Short: ON"
  | .actionShortOff => "Short: OFF"

/-- One write to a peripheral. -/
inductive Out where
  /-- The call `ledcWrite(ch, duty)`. -/
  | ledc (ch duty : Nat)
  /-- The call `showDisplay(m.title, m.info)`. -/
  | display (m : Msg)
  /-- The call `beepTone(freq, ms)`, which blocks for `ms` milliseconds. -/
  | beep (freq ms : Nat)
  deriving DecidableEq

/-! ## State -/

/-- The globals of the sketch, the function-static `ledIndex` of `loop`, and
the duty last written to each of the three LED channels. -/
structure State where
  currentEffect : LedEffectMode
  blinkTime : Nat
  blinkFlag : Bool
  fadeTime : Nat
  actionPressStart : Nat
  actionPressed : Bool
  longPressDone : Bool
  lastModeTime : Nat
  lastBootTime : Nat
  manualMode : Bool
  ledManualState : Bool
  ledIndex : Nat
  dutyR : Nat
  dutyG : Nat
  dutyY : Nat
  deriving DecidableEq

/-- The initialisers of the globals; the LEDC duties are 0 after `ledcSetup`. -/
def State.initial : State where
  currentEffect := EFFECT_OFF
  blinkTime := 0
  blinkFlag := false
  fadeTime := 0
  actionPressStart := 0
  actionPressed := false
  longPressDone := false
  lastModeTime := 0
  lastBootTime := 0
  manualMode := false
  ledManualState := false
  ledIndex := 0
  dutyR := 0
  dutyG := 0
  dutyY := 0

/-- The three consecutive calls `ledcWrite(CH_R, r); ledcWrite(CH_G, g);
ledcWrite(CH_Y, y)`. -/
def writeLeds (s : State) (r g y : Nat) : State × List Out :=
  ({ s with dutyR := r, dutyG := g, dutyY := y },
   [Out.ledc CH_R r, Out.ledc CH_G g, Out.ledc CH_Y y])

/-- The function `setMode(mode)`; `t` is the real time at which its call of
`millis()` is made. -/
def setMode (s : State) (mode : LedEffectMode) (t : Nat) : State × List Out :=
  let s := { s with currentEffect := mode, manualMode := false }
  match mode with
  | EFFECT_OFF =>
    let (s, w) := writeLeds s 0 0 0
    (s, Out.display .modeOff :: w)
  | EFFECT_ALTERNATE =>
    ({ s with blinkTime := millis t, blinkFlag := false }, [Out.display .modeAlternate])
  | EFFECT_ALL_ON =>
    let (s, w) := writeLeds s 255 255 255
    (s, Out.display .modeAllOn :: w)
  | EFFECT_FADE =>
    ({ s with fadeTime := millis t }, [Out.display .modeFade])

/-- The function `setup()` on the path where `display.begin` succeeds (on
failure the sketch halts in `while (true) delay(100)` and never reaches
`loop`). -/
def setup : State × List Out :=
  let (s, o) := setMode State.initial EFFECT_OFF 0
  (s, Out.display .systemReady :: o)

/-! ## One pass of `loop` -/

/-- What the environment supplies during one pass of `loop`: the real times
of the calls of `millis()` and the levels read from the three pins.  The
busy-waits `while (digitalRead(..) == LOW) delay(10)` change no variable; they
only let time pass, and the time at which they end is an input here. -/
structure TickInput where
  /-- Real time of `now = millis()` at the top of `loop`. -/
  now : Nat
  /-- The mode pin reads LOW at line 165. -/
  modeLow : Bool
  /-- Real time of the `millis()` call inside `setMode` on the mode path. -/
  modeSetAt : Nat
  /-- Real time of `lastModeTime = millis()` after the mode busy-wait. -/
  modeReleasedAt : Nat
  /-- The boot pin reads LOW at line 175. -/
  bootLow : Bool
  /-- Real time of `lastBootTime = millis()` after the boot busy-wait. -/
  bootReleasedAt : Nat
  /-- The action pin reads LOW at line 185. -/
  actionLow : Bool
  deriving DecidableEq

/-- The guard of the mode-button block: the pin is LOW and more than
`DEBOUNCE_MS` have passed since `lastModeTime`. -/
def modeAccepted (s : State) (inp : TickInput) : Bool :=
  inp.modeLow && decide (sub32 (millis inp.now) s.lastModeTime > DEBOUNCE_MS)

/-- The guard of the boot-button block. -/
def bootAccepted (s : State) (inp : TickInput) : Bool :=
  inp.bootLow && decide (sub32 (millis inp.now) s.lastBootTime > DEBOUNCE_MS)

/-- Lines 165-172: the mode button. -/
def modeButton (s : State) (inp : TickInput) : State × List Out :=
  if modeAccepted s inp then
    let s := { s with
      currentEffect := LedEffectMode.cast ((s.currentEffect.toNat + 1) % EFFECT_TOTAL) }
    let (s, o) := setMode s s.currentEffect inp.modeSetAt
    ({ s with lastModeTime := millis inp.modeReleasedAt }, o)
  else (s, [])

/-- Lines 175-182: the boot button. -/
def bootButton (s : State) (inp : TickInput) : State × List Out :=
  if bootAccepted s inp then
    let (s, o) := setMode s EFFECT_OFF inp.now
    ({ s with lastBootTime := millis inp.bootReleasedAt }, o ++ [Out.display .systemReset])
  else (s, [])

/-- Lines 187-191: start of a press session. -/
def actionDown (s : State) (inp : TickInput) : State :=
  if inp.actionLow && !s.actionPressed then
    { s with actionPressed := true, actionPressStart := millis inp.now, longPressDone := false }
  else s

/-- Lines 193-199: the long-press check. -/
def actionHold (s : State) (inp : TickInput) : State × List Out :=
  if inp.actionLow && s.actionPressed && !s.longPressDone then
    if sub32 (millis inp.now) s.actionPressStart ≥ 1500 then
      ({ s with longPressDone := true }, [Out.display .actionLong, Out.beep 2500 300])
    else (s, [])
  else (s, [])

/-- Lines 201-221: release of the action button. -/
def actionUp (s : State) (inp : TickInput) : State × List Out :=
  if !inp.actionLow && s.actionPressed then
    let pressTime := sub32 (millis inp.now) s.actionPressStart
    let s := { s with actionPressed := false }
    if !s.longPressDone && decide (pressTime < 1500) then
      let s := { s with manualMode := true, ledManualState := !s.ledManualState }
      if s.ledManualState then
        let (s, w) := writeLeds s 255 255 255
        (s, w ++ [Out.display .actionShortOn])
      else
        let (s, w) := writeLeds s 0 0 0
        (s, w ++ [Out.display .actionShortOff])
    else (s, [])
  else (s, [])

/-- Lines 185-221: the action button. -/
def actionButton (s : State) (inp : TickInput) : State × List Out :=
  let s := actionDown s inp
  let (s, o1) := actionHold s inp
  let (s, o2) := actionUp s inp
  (s, o1 ++ o2)

/-- Lines 224-260: the effect rendering.  The fade intensities are computed
by the sketch in floating point; `fade k e` stands for the integer written to
the `k`-th LED (0, 1, 2) when `elapsed = e`. -/
def ledBehavior (fade : Nat → Nat → Nat) (s : State) (inp : TickInput) : State × List Out :=
  if !s.manualMode then
    match s.currentEffect with
    | EFFECT_ALTERNATE =>
      if sub32 (millis inp.now) s.blinkTime ≥ BLINK_GAP then
        let s := { s with blinkTime := millis inp.now, blinkFlag := !s.blinkFlag }
        if s.blinkFlag then
          let s := { s with ledIndex := (s.ledIndex + 1) % 3 }
          writeLeds s (if s.ledIndex = 0 then 255 else 0) (if s.ledIndex = 1 then 255 else 0)
            (if s.ledIndex = 2 then 255 else 0)
        else writeLeds s 0 0 0
      else (s, [])
    | EFFECT_FADE =>
      let elapsed := sub32 (millis inp.now) s.fadeTime % 2000
      writeLeds s (fade 0 elapsed) (fade 1 elapsed) (fade 2 elapsed)
    | _ => (s, [])
  else (s, [])

/-- One pass of `loop()`: the final state and everything written, in order. -/
def loop (fade : Nat → Nat → Nat) (s : State) (inp : TickInput) : State × List Out :=
  let (s, o1) := modeButton s inp
  let (s, o2) := bootButton s inp
  let (s, o3) := actionButton s inp
  let (s, o4) := ledBehavior fade s inp
  (s, o1 ++ o2 ++ o3 ++ o4)

/-- The state after one pass of `loop`. -/
def tick (fade : Nat → Nat → Nat) (s : State) (inp : TickInput) : State :=
  (loop fade s inp).1

/-- The state after a sequence of passes of `loop`. -/
def run (fade : Nat → Nat → Nat) (s : State) : List TickInput → State
  | [] => s
  | inp :: rest => run fade (tick fade s inp) rest

/-- Everything written during a sequence of passes of `loop`. -/
def trace (fade : Nat → Nat → Nat) (s : State) : List TickInput → List Out
  | [] => []
  | inp :: rest => (loop fade s inp).2 ++ trace fade (tick fade s inp) rest

/-! ## Observations on traces and runs -/

/-- A ShortPress event: one of the two "Short" status texts is shown. -/
def isShortPress : Out → Bool
  | .display .actionShortOn => true
  | .display .actionShortOff => true
  | _ => false

/-- A LongPress event: the "Long Press" status text is shown. -/
def isLongPress : Out → Bool
  | .display .actionLong => true
  | _ => false

/-- The buzzer request of a long press, `beepTone(2500, 300)`. -/
def isLongTone : Out → Bool
  | .beep freq ms => freq == 2500 && ms == 300
  | _ => false

/-- Number of ShortPress events in a trace. -/
def shortPresses (o : List Out) : Nat := o.countP isShortPress

/-- Number of LongPress events in a trace. -/
def longPresses (o : List Out) : Nat := o.countP isLongPress

/-- Number of long-press tones in a trace. -/
def longTones (o : List Out) : Nat := o.countP isLongTone

/-- The condition under which the long-press block (lines 193-199) fires,
read on the state at the top of `loop`. -/
def longFires (s : State) (inp : TickInput) : Bool :=
  inp.actionLow && s.actionPressed && !s.longPressDone &&
    decide (1500 ≤ sub32 (millis inp.now) s.actionPressStart)

/-- The condition under which the short-press block (lines 205-220) fires,
read on the state at the top of `loop`. -/
def shortFires (s : State) (inp : TickInput) : Bool :=
  !inp.actionLow && s.actionPressed && !s.longPressDone &&
    decide (sub32 (millis inp.now) s.actionPressStart < 1500)

/-- Number of passes in which the mode-button block is entered. -/
def modePresses (fade : Nat → Nat → Nat) (s : State) : List TickInput → Nat
  | [] => 0
  | inp :: rest => (if modeAccepted s inp then 1 else 0) + modePresses fade (tick fade s inp) rest

/-- No pass of the run enters the boot-button block. -/
def noReset (fade : Nat → Nat → Nat) (s : State) : List TickInput → Prop
  | [] => True
  | inp :: rest => bootAccepted s inp = false ∧ noReset fade (tick fade s inp) rest

/-- The clock readings of one pass are taken in program order. -/
def TickInput.ordered (i : TickInput) : Prop :=
  i.now ≤ i.modeSetAt ∧ i.modeSetAt ≤ i.modeReleasedAt ∧ i.modeReleasedAt ≤ i.bootReleasedAt

/-- Monotone time: no clock reading of the run is earlier than `t0` or than
a reading made before it. -/
def Timeline (t0 : Nat) : List TickInput → Prop
  | [] => True
  | i :: rest => t0 ≤ i.now ∧ i.ordered ∧ Timeline i.bootReleasedAt rest

/-- What the effect rendering (lines 224-260) writes during one pass. -/
def renderOut (fade : Nat → Nat → Nat) (s : State) (inp : TickInput) : List Out :=
  (ledBehavior fade (actionButton (bootButton (modeButton s inp).1 inp).1 inp).1 inp).2

/-- The states the sketch can be in at the top of `loop`. -/
inductive Reachable (fade : Nat → Nat → Nat) : State → Prop
  | powerOn : Reachable fade setup.1
  | pass (s : State) (inp : TickInput) : Reachable fade s → Reachable fade (tick fade s inp)

/-- The duty written to all three LEDs by a short press that leaves
`ledManualState = b`. -/
def manualLevel (b : Bool) : Nat := if b then 255 else 0

/-- A pass in which no button is touched. -/
def idleAt (t : Nat) : TickInput :=
  { now := t, modeLow := false, modeSetAt := t, modeReleasedAt := t,
    bootLow := false, bootReleasedAt := t, actionLow := false }

/-- A pass in which only the action button is held. -/
def actionAt (t : Nat) : TickInput := { idleAt t with actionLow := true }

/-- A stand-in for the fade intensities, used to run the model on concrete
inputs: a triangle wave with the phase offsets of the sketch. -/
def sampleFade (k e : Nat) : Nat :=
  let x := (e + k * 2000 / 3) % 2000
  if x < 1000 then x * 255 / 1000 else (2000 - x) * 255 / 1000

/-- Whether some pass of `hs` sees at least 1500 ms since `start`. -/
def reaches (start : Nat) (hs : List TickInput) : Bool :=
  hs.any fun h => decide (1500 ≤ sub32 (millis h.now) start)

/-- While the override is active the three LEDs show the level chosen by the
last short press. -/
def ManualInv (s : State) : Prop :=
  s.manualMode = true →
    s.dutyR = manualLevel s.ledManualState ∧ s.dutyG = manualLevel s.ledManualState ∧
      s.dutyY = manualLevel s.ledManualState

instance noResetDecidable (fade : Nat → Nat → Nat) :
    ∀ (l : List TickInput) (s : State), Decidable (noReset fade s l)
  | [], _ => isTrue trivial
  | inp :: rest, s =>
    have := noResetDecidable fade rest (tick fade s inp)
    inferInstanceAs (Decidable (bootAccepted s inp = false ∧ noReset fade (tick fade s inp) rest))

instance orderedDecidable (i : TickInput) : Decidable i.ordered :=
  inferInstanceAs (Decidable (_ ∧ _ ∧ _))

instance timelineDecidable : ∀ (l : List TickInput) (t0 : Nat), Decidable (Timeline t0 l)
  | [], _ => isTrue trivial
  | i :: rest, t0 =>
    have := timelineDecidable rest i.bootReleasedAt
    inferInstanceAs (Decidable (t0 ≤ i.now ∧ i.ordered ∧ Timeline i.bootReleasedAt rest))

/-! ## Concrete inputs -/

/-- A pass that finds the mode button down at `t`; the button is let go at
`rel`. -/
def modeAt (t rel : Nat) : TickInput :=
  { idleAt t with modeLow := true, modeReleasedAt := rel, bootReleasedAt := rel }

/-- A pass that finds the boot button down at `t`; the button is let go at
`rel`. -/
def bootAt (t rel : Nat) : TickInput :=
  { idleAt t with bootLow := true, bootReleasedAt := rel }

/-- A pass that finds both the mode and the boot button down. -/
def bothAt (t relMode relBoot : Nat) : TickInput :=
  { idleAt t with modeLow := true, modeReleasedAt := relMode, bootLow := true,
                  bootReleasedAt := relBoot }

/-- Four mode presses, each well after the lock-out of the one before. -/
def fourPresses : List TickInput :=
  [modeAt 100 200, modeAt 300 400, modeAt 500 600, modeAt 700 800]

/-- The passes during which the action button stays down in a 24 ms press. -/
def heldShort : List TickInput := [actionAt 1008, actionAt 1016]

/-- The passes during which the action button stays down in a press that is
sampled LOW 1504 ms after it began. -/
def heldLong : List TickInput := [actionAt 1008, actionAt 2504]

/-- The action button is held while the mode button is pressed at 108 ms and
kept down until 1700 ms: `loop` sits in the mode busy-wait all that time. -/
def heldBlocked : List TickInput :=
  [{ actionAt 108 with modeLow := true, modeReleasedAt := 1700, bootReleasedAt := 1700 }]

/-- The action pin read LOW, HIGH, LOW on three passes 8 ms apart. -/
def bounce : List TickInput := [actionAt 1000, idleAt 1008, actionAt 1016]

/-- The state at power-on after one pass that finds the action button down
at 1000 ms. -/
def pressedState : State := tick sampleFade setup.1 (actionAt 1000)

/-- Alternate mode with the override switched on by a short press: the state
after a mode press at 100 ms and an action press from 300 ms to 308 ms. -/
def overrideState : State := run sampleFade setup.1 [modeAt 100 200, actionAt 300, idleAt 308]

/-- The state in which the rendering block of one pass starts: the three
button blocks have run. -/
def preRender (s : State) (inp : TickInput) : State :=
  (actionButton (bootButton (modeButton s inp).1 inp).1 inp).1

/-- The three LED duties are all `v`. -/
def allAt (s : State) (v : Nat) : Prop := s.dutyR = v ∧ s.dutyG = v ∧ s.dutyY = v

/-- Only the LED numbered `ledIndex` is lit, at full duty. -/
def OneHot (s : State) : Prop :=
  s.ledIndex < 3 ∧ s.dutyR = (if s.ledIndex = 0 then 255 else 0) ∧
    s.dutyG = (if s.ledIndex = 1 then 255 else 0) ∧ s.dutyY = (if s.ledIndex = 2 then 255 else 0)

/-- In the lit phase of the alternate effect one LED is lit. -/
def LitInv (s : State) : Prop :=
  s.currentEffect = EFFECT_ALTERNATE → s.manualMode = false → s.blinkFlag = true → OneHot s

/-- In Off mode the LEDs show the override level or are dark, and in the off
phase of the alternate effect they are dark or still show an override that was
on when the effect was activated. -/
def OffInv (s : State) : Prop :=
  (s.currentEffect = EFFECT_OFF → allAt s (manualLevel (s.manualMode && s.ledManualState))) ∧
  (s.currentEffect = EFFECT_ALTERNATE → s.manualMode = false → s.blinkFlag = false →
    allAt s 0 ∨ (allAt s 255 ∧ s.ledManualState = true))

/-- The rendering block of this pass toggles the alternate effect into its lit
phase. -/
def litToggle (s : State) (inp : TickInput) : Bool :=
  !(preRender s inp).manualMode && decide ((preRender s inp).currentEffect = EFFECT_ALTERNATE) &&
    decide (BLINK_GAP ≤ sub32 (millis inp.now) (preRender s inp).blinkTime) &&
    !(preRender s inp).blinkFlag

/-- Number of passes of a run that toggle into the lit phase. -/
def litCount (fade : Nat → Nat → Nat) (s : State) : List TickInput → Nat
  | [] => 0
  | inp :: rest => (if litToggle s inp then 1 else 0) + litCount fade (tick fade s inp) rest

/-- The short press that switches the override on in Off mode, followed by a
mode press whose `millis()` inside `setMode` returns the loop-start value. -/
def staleLeds : List TickInput := [actionAt 100, idleAt 108, modeAt 200 300]

/-- A mode press found at 100 ms whose `setMode` reads `millis()` at 130 ms,
after the display has been redrawn; the button is let go at 300 ms. -/
def activationLate : TickInput :=
  { idleAt 100 with modeLow := true, modeSetAt := 130, modeReleasedAt := 300,
                    bootReleasedAt := 300 }

/-- Alternate mode right after its first activation, at 100 ms. -/
def firstAlt : State := run sampleFade setup.1 [modeAt 100 200]

/-- Alternate mode right after its second activation, at 4000 ms: one lit
phase was shown during the first activation, then the mode button went round
the cycle. -/
def secondAlt : State :=
  run sampleFade setup.1
    [modeAt 100 200, idleAt 500, modeAt 1000 1100, modeAt 2000 2100, modeAt 3000 3100,
     modeAt 4000 4100]

/-- The passes, with no button touched, that see the elapsed times `es` after
the anchor `a`. -/
def idleAfter (a : Nat) (es : List Nat) : List TickInput := es.map fun e => idleAt (a + e)

/-- Two states in Alternate mode with the override off and no press session
open that agree on the phase flag and on `ledIndex`, and whose blink anchors
lie the same time `c` after the activation times `a1` and `a2`. -/
def Aligned (a1 a2 : Nat) (s1 s2 : State) : Prop :=
  s1.currentEffect = EFFECT_ALTERNATE ∧ s2.currentEffect = EFFECT_ALTERNATE ∧
  s1.manualMode = false ∧ s2.manualMode = false ∧
  s1.actionPressed = false ∧ s2.actionPressed = false ∧
  s1.blinkFlag = s2.blinkFlag ∧ s1.ledIndex = s2.ledIndex ∧
  ∃ c, s1.blinkTime = millis (a1 + c) ∧ s2.blinkTime = millis (a2 + c)

/-- The value `rVal`, `gVal` or `yVal` (for `k` = 0, 1, 2) of the fade block
(lines 246-249) when `elapsed = e`, with the arithmetic and the sine taken over
the reals: `v = (sin(2 * PI * (e / 2000 + k / 3)) + 1) / 2`. -/
def IsFadeVal (k e : Nat) (v : ℝ) : Prop :=
  v = (Real.sin (2 * Real.pi * ((e : ℝ) / 2000 + (k : ℝ) / 3)) + 1) / 2

/-- The integer `n` is what `(int)(v * 255)` (lines 251-253) yields for the
`k`-th LED at `elapsed = e`: the cast drops the fractional part of the
non-negative value `v * 255`. -/
def FadeTrunc (k e n : Nat) : Prop :=
  ∃ v : ℝ, IsFadeVal k e v ∧ (n : ℝ) ≤ v * 255 ∧ v * 255 < (n : ℝ) + 1

/-- The frame of the fade effect at `elapsed = 0`, for every `e`. -/
def goldenFade (k _e : Nat) : Nat :=
  match k with
  | 0 => 127
  | 1 => 237
  | _ => 17

/-- AllOn mode after two mode presses, run with the golden fade frame. -/
def beforeFade : State := run goldenFade setup.1 [modeAt 100 200, modeAt 1000 1100]

/-- Alternate mode right after an activation at 4000 ms that no lit phase
preceded: the mode button went round the cycle without a pause. -/
def laterAlt : State :=
  run sampleFade setup.1
    [modeAt 100 200, modeAt 1000 1100, modeAt 2000 2100, modeAt 3000 3100, modeAt 4000 4100]

/-- Off mode with the override on and the LEDs lit by a short press. -/
def litManual : State := run sampleFade setup.1 [actionAt 100, idleAt 108]

/-! ## Arithmetic of the 32-bit clock -/

theorem sub32_millis (a b : Nat) (h : b ≤ a) : sub32 (millis a) (millis b) = (a - b) % WORD := by
  unfold sub32 millis WORD; omega

theorem sub32_millis_self (a : Nat) : sub32 (millis a) (millis a) = 0 := by
  unfold sub32 millis WORD; omega

/-! ## What each block of `loop` leaves alone -/

theorem setMode_frame (s : State) (m : LedEffectMode) (t : Nat) :
    (setMode s m t).1.currentEffect = m ∧ (setMode s m t).1.manualMode = false ∧
    (setMode s m t).1.actionPressed = s.actionPressed ∧
    (setMode s m t).1.actionPressStart = s.actionPressStart ∧
    (setMode s m t).1.longPressDone = s.longPressDone ∧
    (setMode s m t).1.ledManualState = s.ledManualState ∧
    (setMode s m t).1.lastModeTime = s.lastModeTime ∧
    (setMode s m t).1.lastBootTime = s.lastBootTime ∧
    (setMode s m t).1.ledIndex = s.ledIndex ∧
    shortPresses (setMode s m t).2 = 0 ∧ longPresses (setMode s m t).2 = 0 ∧
    longTones (setMode s m t).2 = 0 := by
  cases m <;> simp [setMode, writeLeds, shortPresses, longPresses, longTones, isShortPress,
    isLongPress, isLongTone]

theorem modeButton_frame (s : State) (inp : TickInput) :
    (modeButton s inp).1.actionPressed = s.actionPressed ∧
    (modeButton s inp).1.actionPressStart = s.actionPressStart ∧
    (modeButton s inp).1.longPressDone = s.longPressDone ∧
    (modeButton s inp).1.ledManualState = s.ledManualState ∧
    (modeButton s inp).1.lastBootTime = s.lastBootTime ∧
    (modeButton s inp).1.ledIndex = s.ledIndex ∧
    shortPresses (modeButton s inp).2 = 0 ∧ longPresses (modeButton s inp).2 = 0 ∧
    longTones (modeButton s inp).2 = 0 := by
  unfold modeButton
  split_ifs
  · obtain ⟨-, -, h3, h4, h5, h6, -, h8, h9, h10, h11, h12⟩ := setMode_frame
      { s with currentEffect := LedEffectMode.cast ((s.currentEffect.toNat + 1) % EFFECT_TOTAL) }
      (LedEffectMode.cast ((s.currentEffect.toNat + 1) % EFFECT_TOTAL)) inp.modeSetAt
    exact ⟨h3, h4, h5, h6, h8, h9, h10, h11, h12⟩
  · simp [shortPresses, longPresses, longTones]

theorem modeButton_state (s : State) (inp : TickInput) :
    (modeButton s inp).1.currentEffect =
      (if modeAccepted s inp then LedEffectMode.cast ((s.currentEffect.toNat + 1) % EFFECT_TOTAL)
        else s.currentEffect) ∧
    (modeButton s inp).1.manualMode = (if modeAccepted s inp then false else s.manualMode) ∧
    (modeButton s inp).1.lastModeTime =
      (if modeAccepted s inp then millis inp.modeReleasedAt else s.lastModeTime) := by
  unfold modeButton
  split_ifs
  · obtain ⟨h1, h2, -⟩ := setMode_frame
      { s with currentEffect := LedEffectMode.cast ((s.currentEffect.toNat + 1) % EFFECT_TOTAL) }
      (LedEffectMode.cast ((s.currentEffect.toNat + 1) % EFFECT_TOTAL)) inp.modeSetAt
    exact ⟨h1, h2, rfl⟩
  · simp

theorem bootButton_frame (s : State) (inp : TickInput) :
    (bootButton s inp).1.actionPressed = s.actionPressed ∧
    (bootButton s inp).1.actionPressStart = s.actionPressStart ∧
    (bootButton s inp).1.longPressDone = s.longPressDone ∧
    (bootButton s inp).1.ledManualState = s.ledManualState ∧
    (bootButton s inp).1.lastModeTime = s.lastModeTime ∧
    (bootButton s inp).1.ledIndex = s.ledIndex ∧
    shortPresses (bootButton s inp).2 = 0 ∧ longPresses (bootButton s inp).2 = 0 ∧
    longTones (bootButton s inp).2 = 0 := by
  unfold bootButton
  split_ifs
  · obtain ⟨-, -, h3, h4, h5, h6, h7, -, h9, h10, h11, h12⟩ := setMode_frame s EFFECT_OFF inp.now
    refine ⟨h3, h4, h5, h6, h7, h9, ?_, ?_, ?_⟩
    · simpa [shortPresses, isShortPress] using h10
    · simpa [longPresses, isLongPress] using h11
    · simpa [longTones, isLongTone] using h12
  · simp [shortPresses, longPresses, longTones]

theorem bootButton_state (s : State) (inp : TickInput) :
    (bootButton s inp).1.currentEffect =
      (if bootAccepted s inp then EFFECT_OFF else s.currentEffect) ∧
    (bootButton s inp).1.manualMode = (if bootAccepted s inp then false else s.manualMode) ∧
    (bootButton s inp).1.lastBootTime =
      (if bootAccepted s inp then millis inp.bootReleasedAt else s.lastBootTime) := by
  unfold bootButton
  split_ifs
  · obtain ⟨h1, h2, -⟩ := setMode_frame s EFFECT_OFF inp.now
    exact ⟨h1, h2, rfl⟩
  · simp

theorem actionButton_frame (s : State) (inp : TickInput) :
    (actionButton s inp).1.currentEffect = s.currentEffect ∧
    (actionButton s inp).1.lastModeTime = s.lastModeTime ∧
    (actionButton s inp).1.lastBootTime = s.lastBootTime ∧
    (actionButton s inp).1.ledIndex = s.ledIndex := by
  simp only [actionButton, actionDown, actionHold, actionUp, writeLeds]
  split_ifs <;> simp

theorem ledBehavior_frame (fade : Nat → Nat → Nat) (s : State) (inp : TickInput) :
    (ledBehavior fade s inp).1.currentEffect = s.currentEffect ∧
    (ledBehavior fade s inp).1.manualMode = s.manualMode ∧
    (ledBehavior fade s inp).1.actionPressed = s.actionPressed ∧
    (ledBehavior fade s inp).1.actionPressStart = s.actionPressStart ∧
    (ledBehavior fade s inp).1.longPressDone = s.longPressDone ∧
    (ledBehavior fade s inp).1.ledManualState = s.ledManualState ∧
    (ledBehavior fade s inp).1.lastModeTime = s.lastModeTime ∧
    (ledBehavior fade s inp).1.lastBootTime = s.lastBootTime ∧
    shortPresses (ledBehavior fade s inp).2 = 0 ∧ longPresses (ledBehavior fade s inp).2 = 0 ∧
    longTones (ledBehavior fade s inp).2 = 0 := by
  simp only [ledBehavior, writeLeds]
  split_ifs <;> (try split) <;>
    simp [shortPresses, longPresses, longTones, isShortPress, isLongPress, isLongTone]

/-- The action-button block in terms of `longFires` and `shortFires`. -/
theorem actionButton_state (s : State) (inp : TickInput) :
    (actionButton s inp).1.actionPressed = inp.actionLow ∧
    (actionButton s inp).1.actionPressStart =
      (if inp.actionLow && !s.actionPressed then millis inp.now else s.actionPressStart) ∧
    (actionButton s inp).1.longPressDone =
      (if inp.actionLow && !s.actionPressed then false else (s.longPressDone || longFires s inp)) ∧
    (actionButton s inp).1.ledManualState = (s.ledManualState ^^ shortFires s inp) ∧
    (actionButton s inp).1.manualMode = (s.manualMode || shortFires s inp) ∧
    shortPresses (actionButton s inp).2 = (if shortFires s inp then 1 else 0) ∧
    longPresses (actionButton s inp).2 = (if longFires s inp then 1 else 0) ∧
    longTones (actionButton s inp).2 = (if longFires s inp then 1 else 0) := by
  rcases Nat.lt_or_ge (sub32 (millis inp.now) s.actionPressStart) 1500 with h | h <;>
    cases hl : inp.actionLow <;> cases hp : s.actionPressed <;> cases hd : s.longPressDone <;>
    cases hm : s.ledManualState <;>
    simp [actionButton, actionDown, actionHold, actionUp, writeLeds, longFires, shortFires, hl, hp,
      hd, hm, h, Nat.not_le.mpr, Nat.not_lt.mpr, sub32_millis_self, shortPresses, longPresses,
      longTones, isShortPress, isLongPress, isLongTone]


/-! ## One pass of `loop`, field by field -/

theorem shortPresses_append (a b : List Out) :
    shortPresses (a ++ b) = shortPresses a + shortPresses b := by
  simp [shortPresses]

theorem longPresses_append (a b : List Out) :
    longPresses (a ++ b) = longPresses a + longPresses b := by
  simp [longPresses]

theorem longTones_append (a b : List Out) :
    longTones (a ++ b) = longTones a + longTones b := by
  simp [longTones]

theorem fires_congr (s s' : State) (inp : TickInput) (h1 : s'.actionPressed = s.actionPressed)
    (h2 : s'.actionPressStart = s.actionPressStart) (h3 : s'.longPressDone = s.longPressDone) :
    shortFires s' inp = shortFires s inp ∧ longFires s' inp = longFires s inp := by
  simp [shortFires, longFires, h1, h2, h3]

theorem bootAccepted_modeButton (s : State) (inp : TickInput) :
    bootAccepted (modeButton s inp).1 inp = bootAccepted s inp := by
  simp [bootAccepted, (modeButton_frame s inp).2.2.2.2.1]

/-- The press-session variables and the press events of one pass. -/
theorem tick_action (fade : Nat → Nat → Nat) (s : State) (inp : TickInput) :
    (tick fade s inp).actionPressed = inp.actionLow ∧
    (tick fade s inp).actionPressStart =
      (if inp.actionLow && !s.actionPressed then millis inp.now else s.actionPressStart) ∧
    (tick fade s inp).longPressDone =
      (if inp.actionLow && !s.actionPressed then false else (s.longPressDone || longFires s inp)) ∧
    (tick fade s inp).ledManualState = (s.ledManualState ^^ shortFires s inp) ∧
    shortPresses (loop fade s inp).2 = (if shortFires s inp then 1 else 0) ∧
    longPresses (loop fade s inp).2 = (if longFires s inp then 1 else 0) ∧
    longTones (loop fade s inp).2 = (if longFires s inp then 1 else 0) := by
  obtain ⟨m1, m2, m3, m4, -, -, m7, m8, m9⟩ := modeButton_frame s inp
  obtain ⟨b1, b2, b3, b4, -, -, b7, b8, b9⟩ := bootButton_frame (modeButton s inp).1 inp
  obtain ⟨a1, a2, a3, a4, -, a6, a7, a8⟩ :=
    actionButton_state (bootButton (modeButton s inp).1 inp).1 inp
  obtain ⟨-, -, r3, r4, r5, r6, -, -, r9, r10, r11⟩ :=
    ledBehavior_frame fade (actionButton (bootButton (modeButton s inp).1 inp).1 inp).1 inp
  obtain ⟨f1, f2⟩ := fires_congr s (bootButton (modeButton s inp).1 inp).1 inp
    (b1.trans m1) (b2.trans m2) (b3.trans m3)
  simp only [tick, loop, shortPresses_append, longPresses_append, longTones_append]
  rw [r3, r4, r5, r6, r9, r10, r11, a1, a2, a3, a4, a6, a7, a8, b1, b2, b3, b4, b7, b8, b9,
    m1, m2, m3, m4, m7, m8, m9, f1, f2]
  simp

/-- The mode, the override flag and the two lock-out stamps after one pass. -/
theorem tick_mode (fade : Nat → Nat → Nat) (s : State) (inp : TickInput) :
    (tick fade s inp).currentEffect =
      (if bootAccepted s inp then EFFECT_OFF
        else if modeAccepted s inp then
          LedEffectMode.cast ((s.currentEffect.toNat + 1) % EFFECT_TOTAL)
        else s.currentEffect) ∧
    (tick fade s inp).manualMode =
      ((if bootAccepted s inp then false else if modeAccepted s inp then false else s.manualMode)
        || shortFires s inp) ∧
    (tick fade s inp).lastModeTime =
      (if modeAccepted s inp then millis inp.modeReleasedAt else s.lastModeTime) ∧
    (tick fade s inp).lastBootTime =
      (if bootAccepted s inp then millis inp.bootReleasedAt else s.lastBootTime) := by
  obtain ⟨m1, m2, m3, -, -, -, -, -, -⟩ := modeButton_frame s inp
  obtain ⟨n1, n2, n3⟩ := modeButton_state s inp
  obtain ⟨b1, b2, b3, -, b5, -, -, -, -⟩ := bootButton_frame (modeButton s inp).1 inp
  obtain ⟨c1, c2, c3⟩ := bootButton_state (modeButton s inp).1 inp
  obtain ⟨a1, a2, a3, -⟩ := actionButton_frame (bootButton (modeButton s inp).1 inp).1 inp
  obtain ⟨-, -, -, -, a5, -⟩ := actionButton_state (bootButton (modeButton s inp).1 inp).1 inp
  obtain ⟨r1, r2, -, -, -, -, r7, r8, -⟩ :=
    ledBehavior_frame fade (actionButton (bootButton (modeButton s inp).1 inp).1 inp).1 inp
  obtain ⟨f1, -⟩ := fires_congr s (bootButton (modeButton s inp).1 inp).1 inp
    (b1.trans m1) (b2.trans m2) (b3.trans m3)
  have hb := bootAccepted_modeButton s inp
  simp only [tick, loop]
  rw [r1, r2, r7, r8, a1, a2, a3, a5, c1, c2, c3, b5, n1, n2, n3, f1, hb]
  exact ⟨rfl, rfl, rfl, (modeButton_frame s inp).2.2.2.2.1 ▸ rfl⟩




theorem toNat_cast (n : Nat) : (LedEffectMode.cast (n % EFFECT_TOTAL)).toNat = n % 4 := by
  have h : n % 4 < 4 := Nat.mod_lt _ (by decide)
  unfold EFFECT_TOTAL
  generalize n % 4 = k at h
  interval_cases k <;> rfl

theorem toNat_lt (m : LedEffectMode) : m.toNat < 4 := by cases m <;> decide

theorem cast_toNat (m : LedEffectMode) : LedEffectMode.cast m.toNat = m := by cases m <;> rfl

theorem run_append (fade : Nat → Nat → Nat) (a b : List TickInput) (s : State) :
    run fade s (a ++ b) = run fade (run fade s a) b := by
  induction a generalizing s with
  | nil => rfl
  | cons i rest ih => simp [run, ih]

theorem trace_append (fade : Nat → Nat → Nat) (a b : List TickInput) (s : State) :
    trace fade s (a ++ b) = trace fade s a ++ trace fade (run fade s a) b := by
  induction a generalizing s with
  | nil => rfl
  | cons i rest ih => simp [run, trace, ih]

theorem trace_snoc (fade : Nat → Nat → Nat) (p : TickInput) (hs : List TickInput)
    (r : TickInput) (s : State) :
    trace fade s (p :: hs ++ [r]) =
      trace fade s (p :: hs) ++ (loop fade (run fade s (p :: hs)) r).2 := by
  have h := trace_append fade (p :: hs) [r] s
  simpa [trace] using h

theorem reaches_cons (start : Nat) (h : TickInput) (rest : List TickInput) :
    reaches start (h :: rest) =
      (decide (1500 ≤ sub32 (millis h.now) start) || reaches start rest) := by
  simp [reaches]

/-- A run of passes that all read the action pin LOW, from a state in which a
press session is open. -/
theorem hold_run (fade : Nat → Nat → Nat) (hs : List TickInput) :
    ∀ s : State, s.actionPressed = true → (∀ h ∈ hs, h.actionLow = true) →
      (run fade s hs).actionPressed = true ∧
      (run fade s hs).actionPressStart = s.actionPressStart ∧
      (run fade s hs).ledManualState = s.ledManualState ∧
      (run fade s hs).longPressDone = (s.longPressDone || reaches s.actionPressStart hs) ∧
      shortPresses (trace fade s hs) = 0 ∧
      longPresses (trace fade s hs) =
        (if !s.longPressDone && reaches s.actionPressStart hs then 1 else 0) ∧
      longTones (trace fade s hs) =
        (if !s.longPressDone && reaches s.actionPressStart hs then 1 else 0) := by
  induction hs with
  | nil => intro s hp _; simp [run, trace, reaches, shortPresses, longPresses, longTones, hp]
  | cons h rest ih =>
    intro s hp hlow
    have hl : h.actionLow = true := hlow h (List.mem_cons_self _ _)
    obtain ⟨t1, t2, t3, t4, t5, t6, t7⟩ := tick_action fade s h
    have hsf : shortFires s h = false := by simp [shortFires, hl]
    have hlf : longFires s h =
        (!s.longPressDone && decide (1500 ≤ sub32 (millis h.now) s.actionPressStart)) := by
      simp [longFires, hl, hp]
    rw [hl, hp] at t2 t3
    simp only [Bool.not_true, Bool.and_false, Bool.false_eq_true, if_false] at t2 t3
    rw [hsf] at t4 t5
    rw [hl] at t1
    obtain ⟨i1, i2, i3, i4, i5, i6, i7⟩ :=
      ih (tick fade s h) t1 (fun x hx => hlow x (List.mem_cons_of_mem _ hx))
    rw [t2] at i2 i4 i6 i7
    simp only [run, trace, shortPresses_append, longPresses_append, longTones_append]
    rw [i1, i2, i3, i4, i5, i6, i7, t3, t4, t5, t6, t7, hlf]
    rw [reaches_cons]
    generalize decide (1500 ≤ sub32 (millis h.now) s.actionPressStart) = d
    generalize reaches s.actionPressStart rest = q
    generalize s.longPressDone = e
    cases d <;> cases q <;> cases e <;> simp


/-- A press session up to, but not including, its release: the pass `p` that
opens it from an idle state and the passes `hs` during which the pin stays
LOW. -/
theorem session_open (fade : Nat → Nat → Nat) (s : State) (p : TickInput) (hs : List TickInput)
    (hidle : s.actionPressed = false) (hp : p.actionLow = true)
    (hh : ∀ h ∈ hs, h.actionLow = true) :
    (run fade s (p :: hs)).actionPressed = true ∧
    (run fade s (p :: hs)).actionPressStart = millis p.now ∧
    (run fade s (p :: hs)).ledManualState = s.ledManualState ∧
    (run fade s (p :: hs)).longPressDone = reaches (millis p.now) hs ∧
    shortPresses (trace fade s (p :: hs)) = 0 ∧
    longPresses (trace fade s (p :: hs)) = (if reaches (millis p.now) hs then 1 else 0) ∧
    longTones (trace fade s (p :: hs)) = (if reaches (millis p.now) hs then 1 else 0) := by
  obtain ⟨t1, t2, t3, t4, t5, t6, t7⟩ := tick_action fade s p
  have hsf : shortFires s p = false := by simp [shortFires, hp]
  have hlf : longFires s p = false := by simp [longFires, hidle]
  rw [hp] at t1
  rw [hp, hidle] at t2 t3
  simp only [Bool.not_false, Bool.and_self, if_true] at t2 t3
  rw [hsf] at t4 t5
  rw [hlf] at t6 t7
  obtain ⟨i1, i2, i3, i4, i5, i6, i7⟩ := hold_run fade hs (tick fade s p) t1 hh
  rw [t2] at i2 i4 i6 i7
  rw [t3] at i4 i6 i7
  simp only [run, trace, shortPresses_append, longPresses_append, longTones_append]
  rw [i1, i2, i3, i4, i5, i6, i7, t4, t5, t6, t7]
  simp

/-- The pass that reads the pin HIGH again and so closes the session. -/
theorem session_close (fade : Nat → Nat → Nat) (s : State) (p : TickInput) (hs : List TickInput)
    (r : TickInput) (hidle : s.actionPressed = false) (hp : p.actionLow = true)
    (hh : ∀ h ∈ hs, h.actionLow = true) (hr : r.actionLow = false) :
    shortFires (run fade s (p :: hs)) r =
      (!reaches (millis p.now) hs && decide (sub32 (millis r.now) (millis p.now) < 1500)) ∧
    longFires (run fade s (p :: hs)) r = false := by
  obtain ⟨o1, o2, -, o4, -⟩ := session_open fade s p hs hidle hp hh
  simp [shortFires, longFires, o1, o2, o4, hr]

/-- With monotone time, every pass of a session lies between its first and
its last pass. -/
theorem session_times (p : TickInput) (hs : List TickInput) (r : TickInput)
    (hmono : List.Pairwise (· ≤ ·) (List.map TickInput.now (p :: hs ++ [r]))) :
    p.now ≤ r.now ∧ ∀ h ∈ hs, p.now ≤ h.now ∧ h.now ≤ r.now := by
  simp only [List.cons_append, List.map_cons, List.map_append, List.map_nil, List.pairwise_cons,
    List.pairwise_append, List.mem_append, List.mem_map, List.mem_singleton] at hmono
  obtain ⟨h1, -, -, h3⟩ := hmono
  refine ⟨h1 _ (Or.inr rfl), fun h hm => ⟨h1 _ (Or.inl ⟨h, hm, rfl⟩), h3 _ ⟨h, hm, rfl⟩ _ rfl⟩⟩

theorem reaches_false_of_short (start : Nat) (hs : List TickInput)
    (h : ∀ x ∈ hs, sub32 (millis x.now) start < 1500) : reaches start hs = false := by
  simp only [reaches, List.any_eq_false, decide_eq_true_eq, not_le]
  exact h

/-- Counts of a whole session in terms of `reaches`. -/
theorem session_counts (fade : Nat → Nat → Nat) (s : State) (p : TickInput) (hs : List TickInput)
    (r : TickInput) (hidle : s.actionPressed = false) (hp : p.actionLow = true)
    (hh : ∀ h ∈ hs, h.actionLow = true) (hr : r.actionLow = false) :
    longPresses (trace fade s (p :: hs ++ [r])) = (if reaches (millis p.now) hs then 1 else 0) ∧
    longTones (trace fade s (p :: hs ++ [r])) = (if reaches (millis p.now) hs then 1 else 0) ∧
    shortPresses (trace fade s (p :: hs ++ [r])) =
      (if !reaches (millis p.now) hs && decide (sub32 (millis r.now) (millis p.now) < 1500)
        then 1 else 0) ∧
    (tick fade (run fade s (p :: hs)) r).ledManualState =
      (s.ledManualState ^^
        (!reaches (millis p.now) hs && decide (sub32 (millis r.now) (millis p.now) < 1500))) := by
  obtain ⟨-, -, o3, -, o5, o6, o7⟩ := session_open fade s p hs hidle hp hh
  obtain ⟨c1, c2⟩ := session_close fade s p hs r hidle hp hh hr
  obtain ⟨-, -, -, t4, t5, t6, t7⟩ := tick_action fade (run fade s (p :: hs)) r
  rw [c1] at t4 t5
  rw [c2] at t6 t7
  rw [o3] at t4
  rw [trace_snoc, shortPresses_append, longPresses_append, longTones_append,
    t5, t6, t7, o5, o6, o7, t4]
  simp

theorem reaches_iff (start : Nat) (hs : List TickInput) :
    reaches start hs = true ↔ ∃ h ∈ hs, 1500 ≤ sub32 (millis h.now) start := by
  simp [reaches]

theorem sub32_gap (now L : Nat) (h : L ≤ now) (hg : DEBOUNCE_MS < sub32 (millis now) (millis L)) :
    L + DEBOUNCE_MS < now := by
  rw [sub32_millis _ _ h] at hg
  have := Nat.mod_le (now - L) WORD
  omega

theorem mode_gap (fade : Nat → Nat → Nat) (b : TickInput) (l : List TickInput) :
    ∀ (s : State) (t0 L : Nat), s.lastModeTime = millis L → L ≤ t0 → Timeline t0 (l ++ [b]) →
      modeAccepted (run fade s l) b = true → L + DEBOUNCE_MS < b.now := by
  induction l with
  | nil =>
    intro s t0 L hL hle ht hacc
    simp only [List.nil_append, Timeline] at ht
    simp only [run, modeAccepted, Bool.and_eq_true, decide_eq_true_eq, hL] at hacc
    exact sub32_gap _ _ (le_trans hle ht.1) hacc.2
  | cons i rest ih =>
    intro s t0 L hL hle ht hacc
    simp only [List.cons_append, Timeline, TickInput.ordered] at ht
    obtain ⟨h0, ⟨h1, h2, h3⟩, hrest⟩ := ht
    obtain ⟨-, -, m3, -⟩ := tick_mode fade s i
    by_cases hi : modeAccepted s i = true
    · rw [if_pos hi] at m3
      have := ih (tick fade s i) i.bootReleasedAt i.modeReleasedAt m3 h3 hrest hacc
      omega
    · rw [if_neg hi, hL] at m3
      exact ih (tick fade s i) i.bootReleasedAt L m3 (by omega) hrest hacc

theorem boot_gap (fade : Nat → Nat → Nat) (b : TickInput) (l : List TickInput) :
    ∀ (s : State) (t0 L : Nat), s.lastBootTime = millis L → L ≤ t0 → Timeline t0 (l ++ [b]) →
      bootAccepted (run fade s l) b = true → L + DEBOUNCE_MS < b.now := by
  induction l with
  | nil =>
    intro s t0 L hL hle ht hacc
    simp only [List.nil_append, Timeline] at ht
    simp only [run, bootAccepted, Bool.and_eq_true, decide_eq_true_eq, hL] at hacc
    exact sub32_gap _ _ (le_trans hle ht.1) hacc.2
  | cons i rest ih =>
    intro s t0 L hL hle ht hacc
    simp only [List.cons_append, Timeline, TickInput.ordered] at ht
    obtain ⟨h0, ⟨h1, h2, h3⟩, hrest⟩ := ht
    obtain ⟨-, -, -, m4⟩ := tick_mode fade s i
    by_cases hi : bootAccepted s i = true
    · rw [if_pos hi] at m4
      have := ih (tick fade s i) i.bootReleasedAt i.bootReleasedAt m4 le_rfl hrest hacc
      omega
    · rw [if_neg hi, hL] at m4
      exact ih (tick fade s i) i.bootReleasedAt L m4 (by omega) hrest hacc

theorem lastModeTime_kept (fade : Nat → Nat → Nat) (l : List TickInput) :
    ∀ s : State, modePresses fade s l = 0 → (run fade s l).lastModeTime = s.lastModeTime := by
  induction l with
  | nil => intro s _; rfl
  | cons i rest ih =>
    intro s h
    simp only [modePresses] at h
    have hi : ¬ modeAccepted s i = true := by
      intro hc; rw [if_pos hc] at h; omega
    have hrest : modePresses fade (tick fade s i) rest = 0 := by omega
    rw [run, ih _ hrest, (tick_mode fade s i).2.2.1, if_neg hi]

theorem lastBootTime_kept (fade : Nat → Nat → Nat) (l : List TickInput) :
    ∀ s : State, noReset fade s l → (run fade s l).lastBootTime = s.lastBootTime := by
  induction l with
  | nil => intro s _; rfl
  | cons i rest ih =>
    intro s h
    obtain ⟨hi, hrest⟩ := h
    rw [run, ih _ hrest, (tick_mode fade s i).2.2.2, hi]
    simp

theorem modeButton_idle (s : State) (inp : TickInput) (h : ¬ modeAccepted s inp = true) :
    modeButton s inp = (s, []) := by
  simp [modeButton, h]

theorem bootButton_idle (s : State) (inp : TickInput) (h : ¬ bootAccepted s inp = true) :
    bootButton s inp = (s, []) := by
  simp [bootButton, h]

theorem ledBehavior_manual (fade : Nat → Nat → Nat) (s : State) (inp : TickInput)
    (h : s.manualMode = true) : ledBehavior fade s inp = (s, []) := by
  simp [ledBehavior, h]

/-- The LED duties after the action-button block. -/
theorem actionButton_duty (s : State) (inp : TickInput) :
    (shortFires s inp = true →
      (actionButton s inp).1.dutyR = manualLevel (!s.ledManualState) ∧
      (actionButton s inp).1.dutyG = manualLevel (!s.ledManualState) ∧
      (actionButton s inp).1.dutyY = manualLevel (!s.ledManualState)) ∧
    (shortFires s inp = false →
      (actionButton s inp).1.dutyR = s.dutyR ∧ (actionButton s inp).1.dutyG = s.dutyG ∧
      (actionButton s inp).1.dutyY = s.dutyY) := by
  rcases Nat.lt_or_ge (sub32 (millis inp.now) s.actionPressStart) 1500 with h | h <;>
    cases hl : inp.actionLow <;> cases hp : s.actionPressed <;> cases hd : s.longPressDone <;>
    cases hm : s.ledManualState <;>
    simp [actionButton, actionDown, actionHold, actionUp, writeLeds, shortFires, hl, hp,
      hd, hm, h, Nat.not_le.mpr, Nat.not_lt.mpr, sub32_millis_self, manualLevel]

/-- A pass that ends with the override active: the rendering wrote nothing,
and either a short press fired in it or nothing touched the LEDs. -/
theorem tick_manual (fade : Nat → Nat → Nat) (s : State) (inp : TickInput)
    (h : (tick fade s inp).manualMode = true) :
    renderOut fade s inp = [] ∧
    ((shortFires s inp = true ∧
        (tick fade s inp).dutyR = manualLevel (!s.ledManualState) ∧
        (tick fade s inp).dutyG = manualLevel (!s.ledManualState) ∧
        (tick fade s inp).dutyY = manualLevel (!s.ledManualState)) ∨
      (shortFires s inp = false ∧ s.manualMode = true ∧
        (tick fade s inp).dutyR = s.dutyR ∧ (tick fade s inp).dutyG = s.dutyG ∧
        (tick fade s inp).dutyY = s.dutyY)) := by
  have hm := (tick_mode fade s inp).2.1
  obtain ⟨m1, m2, m3, -⟩ := modeButton_frame s inp
  obtain ⟨b1, b2, b3, -⟩ := bootButton_frame (modeButton s inp).1 inp
  obtain ⟨f1, -⟩ := fires_congr s (bootButton (modeButton s inp).1 inp).1 inp
    (b1.trans m1) (b2.trans m2) (b3.trans m3)
  obtain ⟨d1, d2⟩ := actionButton_duty (bootButton (modeButton s inp).1 inp).1 inp
  have h3 : (actionButton (bootButton (modeButton s inp).1 inp).1 inp).1.manualMode = true := by
    rw [← (ledBehavior_frame fade _ inp).2.1]; exact h
  have hr := ledBehavior_manual fade _ inp h3
  have ht : tick fade s inp = (actionButton (bootButton (modeButton s inp).1 inp).1 inp).1 := by
    simp only [tick, loop, hr]
  refine ⟨by simp only [renderOut, hr], ?_⟩
  rw [f1] at d1 d2
  rw [(bootButton_frame (modeButton s inp).1 inp).2.2.2.1, (modeButton_frame s inp).2.2.2.1] at d1
  cases hs : shortFires s inp
  · right
    rw [h, hs, Bool.or_false] at hm
    have hb : ¬ bootAccepted s inp = true := by
      intro hc; rw [if_pos hc] at hm; exact Bool.noConfusion hm
    rw [if_neg hb] at hm
    have hmo : ¬ modeAccepted s inp = true := by
      intro hc; rw [if_pos hc] at hm; exact Bool.noConfusion hm
    rw [if_neg hmo] at hm
    have e1 := modeButton_idle s inp hmo
    have e2 : bootButton (modeButton s inp).1 inp = (s, []) := by
      rw [e1]; exact bootButton_idle s inp hb
    rw [e2] at d2
    rw [ht, e2]
    exact ⟨rfl, hm.symm, d2 hs⟩
  · left
    rw [ht]
    exact ⟨rfl, d1 hs⟩

theorem manualInv_tick (fade : Nat → Nat → Nat) (s : State) (inp : TickInput) (hs : ManualInv s) :
    ManualInv (tick fade s inp) := by
  intro h
  obtain ⟨-, hcase⟩ := tick_manual fade s inp h
  have hl := (tick_action fade s inp).2.2.2.1
  rcases hcase with ⟨hf, d⟩ | ⟨hf, hm, d1, d2, d3⟩
  · rw [hl, hf, Bool.xor_true]; exact d
  · rw [hl, hf, Bool.xor_false, d1, d2, d3]; exact hs hm

theorem manualInv_reachable (fade : Nat → Nat → Nat) (s : State) (h : Reachable fade s) :
    ManualInv s := by
  induction h with
  | powerOn => intro hc; exact absurd hc (by decide)
  | pass s inp _ ih => exact manualInv_tick fade s inp ih

theorem run_snoc (fade : Nat → Nat → Nat) (l : List TickInput) (b : TickInput) (s : State) :
    run fade s (l ++ [b]) = tick fade (run fade s l) b := by
  induction l generalizing s with
  | nil => rfl
  | cons i rest ih => simp [run, ih]

theorem shortFires_of_count (fade : Nat → Nat → Nat) (s : State) (inp : TickInput)
    (h : shortPresses (loop fade s inp).2 = 1) : shortFires s inp = true := by
  rw [(tick_action fade s inp).2.2.2.2.1] at h
  by_contra hc
  rw [if_neg hc] at h
  omega

theorem ledManualState_kept (fade : Nat → Nat → Nat) (l : List TickInput) :
    ∀ s : State, shortPresses (trace fade s l) = 0 →
      (run fade s l).ledManualState = s.ledManualState := by
  induction l with
  | nil => intro s _; rfl
  | cons i rest ih =>
    intro s h
    rw [trace, shortPresses_append, (tick_action fade s i).2.2.2.2.1] at h
    have hi : ¬ shortFires s i = true := by
      intro hc; rw [if_pos hc] at h; omega
    have hrest : shortPresses (trace fade (tick fade s i) rest) = 0 := by omega
    rw [run, ih _ hrest, (tick_action fade s i).2.2.2.1]
    simp [hi]

theorem tick_eq_render (fade : Nat → Nat → Nat) (s : State) (inp : TickInput) :
    tick fade s inp = (ledBehavior fade (preRender s inp) inp).1 := rfl

theorem renderOut_eq (fade : Nat → Nat → Nat) (s : State) (inp : TickInput) :
    renderOut fade s inp = (ledBehavior fade (preRender s inp) inp).2 := rfl

theorem litInv_modeButton (s : State) (inp : TickInput) (h : LitInv s) :
    LitInv (modeButton s inp).1 := by
  unfold modeButton
  split_ifs
  · cases hm : s.currentEffect <;>
      simp [LitInv, setMode, writeLeds, hm, LedEffectMode.toNat, EFFECT_TOTAL, LedEffectMode.cast]
  · exact h

theorem litInv_bootButton (s : State) (inp : TickInput) (h : LitInv s) :
    LitInv (bootButton s inp).1 := by
  unfold bootButton
  split_ifs
  · simp [LitInv, setMode, writeLeds]
  · exact h

theorem offInv_modeButton (s : State) (inp : TickInput) (h : OffInv s) :
    OffInv (modeButton s inp).1 := by
  unfold modeButton
  split_ifs
  · obtain ⟨h1, -⟩ := h
    cases hm : s.currentEffect <;>
      simp [OffInv, setMode, writeLeds, hm, LedEffectMode.toNat, EFFECT_TOTAL, LedEffectMode.cast,
        allAt, manualLevel]
    have := h1 hm
    revert this
    cases s.manualMode <;> cases hl : s.ledManualState <;> simp [allAt, manualLevel] <;>
      intro a b c <;> simp [a, b, c]
  · exact h

theorem offInv_bootButton (s : State) (inp : TickInput) (h : OffInv s) :
    OffInv (bootButton s inp).1 := by
  unfold bootButton
  split_ifs
  · simp [OffInv, setMode, writeLeds, allAt, manualLevel]
  · exact h

theorem litInv_actionButton (s : State) (inp : TickInput) (h : LitInv s) :
    LitInv (actionButton s inp).1 := by
  unfold LitInv OneHot at *
  rcases Nat.lt_or_ge (sub32 (millis inp.now) s.actionPressStart) 1500 with h1 | h1 <;>
    cases hl : inp.actionLow <;> cases hp : s.actionPressed <;> cases hd : s.longPressDone <;>
    cases hm : s.ledManualState <;>
    simp [actionButton, actionDown, actionHold, actionUp, writeLeds, hl, hp,
      hd, hm, h1, Nat.not_le.mpr, Nat.not_lt.mpr, sub32_millis_self] <;>
    exact h

theorem offInv_actionButton (s : State) (inp : TickInput) (h : OffInv s) :
    OffInv (actionButton s inp).1 := by
  unfold OffInv allAt at *
  rcases Nat.lt_or_ge (sub32 (millis inp.now) s.actionPressStart) 1500 with h1 | h1 <;>
    cases hl : inp.actionLow <;> cases hp : s.actionPressed <;> cases hd : s.longPressDone <;>
    cases hm : s.ledManualState <;>
    simp [actionButton, actionDown, actionHold, actionUp, writeLeds, hl, hp,
      hd, hm, h1, Nat.not_le.mpr, Nat.not_lt.mpr, sub32_millis_self, manualLevel] <;>
    simpa [hm] using h

theorem litInv_ledBehavior (fade : Nat → Nat → Nat) (s : State) (inp : TickInput)
    (h : LitInv s) : LitInv (ledBehavior fade s inp).1 := by
  unfold LitInv OneHot at *
  cases hman : s.manualMode <;> cases hm : s.currentEffect <;> cases hb : s.blinkFlag <;>
    simp [ledBehavior, writeLeds, hman, hm, hb] <;>
    (split_ifs <;> simp_all [Nat.mod_lt])

theorem offInv_ledBehavior (fade : Nat → Nat → Nat) (s : State) (inp : TickInput)
    (h : OffInv s) : OffInv (ledBehavior fade s inp).1 := by
  unfold OffInv allAt at *
  cases hman : s.manualMode <;> cases hm : s.currentEffect <;> cases hb : s.blinkFlag <;>
    simp [ledBehavior, writeLeds, hman, hm, hb] <;>
    first
      | (split_ifs <;> simp_all)
      | simp_all

theorem litInv_tick (fade : Nat → Nat → Nat) (s : State) (inp : TickInput) (h : LitInv s) :
    LitInv (tick fade s inp) :=
  litInv_ledBehavior fade _ inp
    (litInv_actionButton _ inp (litInv_bootButton _ inp (litInv_modeButton s inp h)))

theorem offInv_tick (fade : Nat → Nat → Nat) (s : State) (inp : TickInput) (h : OffInv s) :
    OffInv (tick fade s inp) :=
  offInv_ledBehavior fade _ inp
    (offInv_actionButton _ inp (offInv_bootButton _ inp (offInv_modeButton s inp h)))

theorem litInv_reachable (fade : Nat → Nat → Nat) (s : State) (h : Reachable fade s) :
    LitInv s := by
  induction h with
  | powerOn => intro hc; exact absurd hc (by decide)
  | pass s inp _ ih => exact litInv_tick fade s inp ih

theorem offInv_reachable (fade : Nat → Nat → Nat) (s : State) (h : Reachable fade s) :
    OffInv s := by
  induction h with
  | powerOn => exact ⟨fun _ => ⟨rfl, rfl, rfl⟩, fun hc => absurd hc (by decide)⟩
  | pass s inp _ ih => exact offInv_tick fade s inp ih

theorem preRender_ledIndex (s : State) (inp : TickInput) :
    (preRender s inp).ledIndex = s.ledIndex := by
  unfold preRender
  rw [(actionButton_frame _ inp).2.2.2, (bootButton_frame _ inp).2.2.2.2.2.1,
    (modeButton_frame s inp).2.2.2.2.2.1]

/-- The rendering block in Alternate mode with the override off. -/
theorem ledBehavior_alternate (fade : Nat → Nat → Nat) (q : State) (inp : TickInput)
    (hmode : q.currentEffect = EFFECT_ALTERNATE) (hman : q.manualMode = false) :
    ledBehavior fade q inp =
      if BLINK_GAP ≤ sub32 (millis inp.now) q.blinkTime then
        if q.blinkFlag = false then
          writeLeds { q with blinkTime := millis inp.now, blinkFlag := true,
                             ledIndex := (q.ledIndex + 1) % 3 }
            (if (q.ledIndex + 1) % 3 = 0 then 255 else 0)
            (if (q.ledIndex + 1) % 3 = 1 then 255 else 0)
            (if (q.ledIndex + 1) % 3 = 2 then 255 else 0)
        else writeLeds { q with blinkTime := millis inp.now, blinkFlag := false } 0 0 0
      else (q, []) := by
  cases hb : q.blinkFlag <;> simp [ledBehavior, hmode, hman, hb]

/-- The rendering block changes `ledIndex` exactly on a toggle into the lit
phase. -/
theorem tick_ledIndex (fade : Nat → Nat → Nat) (s : State) (inp : TickInput) :
    (tick fade s inp).ledIndex = if litToggle s inp then (s.ledIndex + 1) % 3 else s.ledIndex := by
  rw [tick_eq_render, ← preRender_ledIndex s inp]
  unfold litToggle
  generalize preRender s inp = q
  cases hman : q.manualMode <;> cases hm : q.currentEffect <;> cases hb : q.blinkFlag <;>
    simp [ledBehavior, writeLeds, hman, hm, hb] <;> split_ifs <;> simp_all

theorem run_ledIndex (fade : Nat → Nat → Nat) (l : List TickInput) :
    ∀ s : State, s.ledIndex < 3 →
      (run fade s l).ledIndex = (s.ledIndex + litCount fade s l) % 3 := by
  induction l with
  | nil => intro s h; simp [run, litCount, Nat.mod_eq_of_lt h]
  | cons i rest ih =>
    intro s h
    have ht := tick_ledIndex fade s i
    have hlt : (tick fade s i).ledIndex < 3 := by
      rw [ht]; split_ifs
      · exact Nat.mod_lt _ (by decide)
      · exact h
    rw [run, litCount, ih _ hlt, ht]
    split_ifs <;> omega

theorem sub32_shift (a1 a2 e c : Nat) :
    sub32 (millis (a1 + e)) (millis (a1 + c)) = sub32 (millis (a2 + e)) (millis (a2 + c)) := by
  unfold sub32 millis WORD; omega

theorem loop_idle (fade : Nat → Nat → Nat) (s : State) (t : Nat) (h : s.actionPressed = false) :
    loop fade s (idleAt t) = ledBehavior fade s (idleAt t) := by
  simp [loop, modeButton, bootButton, actionButton, actionDown, actionHold, actionUp,
    modeAccepted, bootAccepted, idleAt, h]

theorem aligned_step (fade : Nat → Nat → Nat) (a1 a2 e : Nat) (s1 s2 : State)
    (h : Aligned a1 a2 s1 s2) :
    (loop fade s1 (idleAt (a1 + e))).2 = (loop fade s2 (idleAt (a2 + e))).2 ∧
    Aligned a1 a2 (tick fade s1 (idleAt (a1 + e))) (tick fade s2 (idleAt (a2 + e))) := by
  obtain ⟨m1, m2, n1, n2, p1, p2, hf, hi, c, b1, b2⟩ := h
  have hs := sub32_shift a1 a2 e c
  simp only [tick, loop_idle fade s1 _ p1, loop_idle fade s2 _ p2,
    ledBehavior_alternate fade s1 _ m1 n1, ledBehavior_alternate fade s2 _ m2 n2]
  have hn1 : (idleAt (a1 + e)).now = a1 + e := rfl
  have hn2 : (idleAt (a2 + e)).now = a2 + e := rfl
  rw [hn1, hn2, b1, b2, hs, hf, hi]
  by_cases hg : BLINK_GAP ≤ sub32 (millis (a2 + e)) (millis (a2 + c))
  · cases hb : s2.blinkFlag
    · simp only [hg, hb, if_true, writeLeds]
      exact ⟨trivial, m1, m2, n1, n2, p1, p2, rfl, rfl, e, rfl, rfl⟩
    · simp only [hg, hb, if_true, writeLeds, Bool.true_eq_false, if_false]
      exact ⟨trivial, m1, m2, n1, n2, p1, p2, rfl, rfl, e, rfl, rfl⟩
  · simp only [hg, if_false]
    exact ⟨trivial, m1, m2, n1, n2, p1, p2, hf, hi, c, b1, b2⟩

theorem sqrt_three_bounds : (1.72 : ℝ) < √3 ∧ √3 < (1.733 : ℝ) := by
  have h0 : (0 : ℝ) ≤ √3 := Real.sqrt_nonneg 3
  have h1 : √3 ^ 2 = (3 : ℝ) := Real.sq_sqrt (by norm_num)
  constructor
  · by_contra hc
    push_neg at hc
    nlinarith
  · by_contra hc
    push_neg at hc
    nlinarith

theorem sin_two_pi_div_three : Real.sin (2 * Real.pi / 3) = √3 / 2 := by
  have h : 2 * Real.pi / 3 = Real.pi - Real.pi / 3 := by ring
  rw [h, Real.sin_pi_sub, Real.sin_pi_div_three]

theorem cos_two_pi_div_three : Real.cos (2 * Real.pi / 3) = -(1 / 2) := by
  have h : 2 * Real.pi / 3 = Real.pi - Real.pi / 3 := by ring
  rw [h, Real.cos_pi_sub, Real.cos_pi_div_three]

theorem sin_four_pi_div_three : Real.sin (4 * Real.pi / 3) = -(√3 / 2) := by
  have h : 4 * Real.pi / 3 = Real.pi / 3 + Real.pi := by ring
  rw [h, Real.sin_add_pi, Real.sin_pi_div_three]

theorem cos_four_pi_div_three : Real.cos (4 * Real.pi / 3) = -(1 / 2) := by
  have h : 4 * Real.pi / 3 = Real.pi / 3 + Real.pi := by ring
  rw [h, Real.cos_add_pi, Real.cos_pi_div_three]

theorem isFadeVal_range (k e : Nat) (v : ℝ) (h : IsFadeVal k e v) : 0 ≤ v ∧ v ≤ 1 := by
  unfold IsFadeVal at h
  have h1 := Real.neg_one_le_sin (2 * Real.pi * ((e : ℝ) / 2000 + (k : ℝ) / 3))
  have h2 := Real.sin_le_one (2 * Real.pi * ((e : ℝ) / 2000 + (k : ℝ) / 3))
  constructor <;> linarith

theorem fadeTrunc_le (k e n : Nat) (h : FadeTrunc k e n) : n ≤ 255 := by
  obtain ⟨v, hv, hlo, -⟩ := h
  have hr := (isFadeVal_range k e v hv).2
  have : (n : ℝ) ≤ 255 := by linarith
  exact_mod_cast this

theorem fadeTrunc_floor (k e n : Nat) (v : ℝ) (h : FadeTrunc k e n) (hv : IsFadeVal k e v) :
    0 ≤ v * 255 ∧ (n : ℤ) = ⌊v * 255⌋ := by
  obtain ⟨w, hw, hlo, hhi⟩ := h
  have hwv : w = v := by rw [hw, hv]
  subst hwv
  refine ⟨by have := (isFadeVal_range k e w hv).1; positivity, ?_⟩
  symm
  rw [Int.floor_eq_iff]
  exact ⟨by exact_mod_cast hlo, by exact_mod_cast hhi⟩

theorem fadeTrunc_unique (k e n m : Nat) (hn : FadeTrunc k e n) (hm : FadeTrunc k e m) :
    n = m := by
  obtain ⟨v, hv, -, -⟩ := id hn
  have h1 := (fadeTrunc_floor k e n v hn hv).2
  have h2 := (fadeTrunc_floor k e m v hm hv).2
  have : (n : ℤ) = (m : ℤ) := by rw [h1, h2]
  exact_mod_cast this

theorem isFadeVal_zero_R : IsFadeVal 0 0 (1 / 2) := by
  unfold IsFadeVal; simp

theorem isFadeVal_zero_G : IsFadeVal 1 0 ((√3 / 2 + 1) / 2) := by
  unfold IsFadeVal
  have h : 2 * Real.pi * (((0 : ℕ) : ℝ) / 2000 + ((1 : ℕ) : ℝ) / 3) = 2 * Real.pi / 3 := by
    push_cast; ring
  rw [h, sin_two_pi_div_three]

theorem isFadeVal_zero_Y : IsFadeVal 2 0 ((-(√3 / 2) + 1) / 2) := by
  unfold IsFadeVal
  have h : 2 * Real.pi * (((0 : ℕ) : ℝ) / 2000 + ((2 : ℕ) : ℝ) / 3) = 4 * Real.pi / 3 := by
    push_cast; ring
  rw [h, sin_four_pi_div_three]

theorem fadeTrunc_zero_R : FadeTrunc 0 0 127 :=
  ⟨_, isFadeVal_zero_R, by norm_num, by norm_num⟩

theorem fadeTrunc_zero_G : FadeTrunc 1 0 237 := by
  obtain ⟨h1, h2⟩ := sqrt_three_bounds
  refine ⟨_, isFadeVal_zero_G, ?_, ?_⟩ <;> norm_num <;> linarith

theorem fadeTrunc_zero_Y : FadeTrunc 2 0 17 := by
  obtain ⟨h1, h2⟩ := sqrt_three_bounds
  refine ⟨_, isFadeVal_zero_Y, ?_, ?_⟩ <;> norm_num <;> linarith

/-- The rendering block in Fade mode with the override off. -/
theorem ledBehavior_fade (fade : Nat → Nat → Nat) (q : State) (inp : TickInput)
    (hmode : q.currentEffect = EFFECT_FADE) (hman : q.manualMode = false) :
    ledBehavior fade q inp =
      writeLeds q (fade 0 (sub32 (millis inp.now) q.fadeTime % 2000))
        (fade 1 (sub32 (millis inp.now) q.fadeTime % 2000))
        (fade 2 (sub32 (millis inp.now) q.fadeTime % 2000)) := by
  simp [ledBehavior, hmode, hman]

/-- The three untruncated fade values add up to 3/2. -/
theorem isFadeVal_sum (e : Nat) (v0 v1 v2 : ℝ) (h0 : IsFadeVal 0 e v0) (h1 : IsFadeVal 1 e v1)
    (h2 : IsFadeVal 2 e v2) : v0 + v1 + v2 = 3 / 2 := by
  unfold IsFadeVal at h0 h1 h2
  have a0 : 2 * Real.pi * ((e : ℝ) / 2000 + ((0 : ℕ) : ℝ) / 3) = 2 * Real.pi * ((e : ℝ) / 2000) := by
    push_cast; ring
  have a1 : 2 * Real.pi * ((e : ℝ) / 2000 + ((1 : ℕ) : ℝ) / 3)
      = 2 * Real.pi * ((e : ℝ) / 2000) + 2 * Real.pi / 3 := by
    push_cast; ring
  have a2 : 2 * Real.pi * ((e : ℝ) / 2000 + ((2 : ℕ) : ℝ) / 3)
      = 2 * Real.pi * ((e : ℝ) / 2000) + 4 * Real.pi / 3 := by
    push_cast; ring
  rw [a0] at h0
  rw [a1, Real.sin_add, sin_two_pi_div_three, cos_two_pi_div_three] at h1
  rw [a2, Real.sin_add, sin_four_pi_div_three, cos_four_pi_div_three] at h2
  rw [h0, h1, h2]
  ring

/-- The three truncated fade values add up to 380, 381 or 382. -/
theorem fadeTrunc_sum (e n0 n1 n2 : Nat) (h0 : FadeTrunc 0 e n0) (h1 : FadeTrunc 1 e n1)
    (h2 : FadeTrunc 2 e n2) : 380 ≤ n0 + n1 + n2 ∧ n0 + n1 + n2 ≤ 382 := by
  obtain ⟨v0, hv0, l0, u0⟩ := h0
  obtain ⟨v1, hv1, l1, u1⟩ := h1
  obtain ⟨v2, hv2, l2, u2⟩ := h2
  have hs := isFadeVal_sum e v0 v1 v2 hv0 hv1 hv2
  have hlo : ((379 : ℕ) : ℝ) < ((n0 + n1 + n2 : ℕ) : ℝ) := by push_cast; linarith
  have hhi : ((n0 + n1 + n2 : ℕ) : ℝ) < ((383 : ℕ) : ℝ) := by push_cast; linarith
  have hlo' := Nat.cast_lt.mp hlo
  have hhi' := Nat.cast_lt.mp hhi
  omega

/-! ## The claims -/

/-- C1 (mode cycling). From any state, over any run of passes in which the
boot-button block is never entered, the mode at the end is the starting mode
advanced by the number of accepted mode presses, modulo 4; with exactly four
accepted presses the mode is back where it started. -/
theorem mode_cycling (fade : Nat → Nat → Nat) (s : State) (inps : List TickInput)
    (hno : noReset fade s inps) :
    (run fade s inps).currentEffect.toNat
        = (s.currentEffect.toNat + modePresses fade s inps) % 4 ∧
      (modePresses fade s inps = 4 → (run fade s inps).currentEffect = s.currentEffect) := by
  have key : ∀ (l : List TickInput) (s : State), noReset fade s l →
      (run fade s l).currentEffect.toNat = (s.currentEffect.toNat + modePresses fade s l) % 4 := by
    intro l
    induction l with
    | nil => intro s _; simp [run, modePresses, Nat.mod_eq_of_lt (toNat_lt _)]
    | cons inp rest ih =>
      intro s h
      obtain ⟨hb, hrest⟩ := h
      rw [run, modePresses, ih _ hrest, (tick_mode fade s inp).1, hb]
      by_cases hm : modeAccepted s inp = true
      · simp only [hm, if_true, Bool.false_eq_true, if_false, toNat_cast]; omega
      · simp [hm]
  refine ⟨key inps s hno, fun h4 => ?_⟩
  have h := key inps s hno
  rw [h4] at h
  have hlt := toNat_lt s.currentEffect
  have : (run fade s inps).currentEffect.toNat = s.currentEffect.toNat := by omega
  rw [← cast_toNat (run fade s inps).currentEffect, this, cast_toNat]

/-- Witness for C1: four accepted mode presses from power-on, no reset. -/
theorem mode_cycling_witness :
    noReset sampleFade setup.1 fourPresses ∧ modePresses sampleFade setup.1 fourPresses = 4 ∧
      (run sampleFade setup.1 fourPresses).currentEffect = setup.1.currentEffect :=
  ⟨by decide, by decide, (mode_cycling sampleFade setup.1 fourPresses (by decide)).2 (by decide)⟩

/-- C2 (short press). A press session opens at pass `p` from an idle state,
the pin stays LOW during the passes `hs` and reads HIGH at pass `r`; the
timestamps do not decrease and `r.now - p.now < 1500`. Then the release pass
fires exactly one ShortPress, which sets `manualMode` and toggles
`ledManualState` once, it is the only ShortPress of the session, and neither a
"Long Press" text nor a long-press tone occurs in any pass of the session. -/
theorem short_press_session (fade : Nat → Nat → Nat) (s : State) (p : TickInput)
    (hs : List TickInput) (r : TickInput)
    (hidle : s.actionPressed = false) (hp : p.actionLow = true)
    (hh : ∀ h ∈ hs, h.actionLow = true) (hr : r.actionLow = false)
    (hmono : List.Pairwise (· ≤ ·) (List.map TickInput.now (p :: hs ++ [r])))
    (hshort : r.now - p.now < 1500) :
    shortPresses (loop fade (run fade s (p :: hs)) r).2 = 1 ∧
    (tick fade (run fade s (p :: hs)) r).manualMode = true ∧
    (tick fade (run fade s (p :: hs)) r).ledManualState = !s.ledManualState ∧
    shortPresses (trace fade s (p :: hs ++ [r])) = 1 ∧
    longPresses (trace fade s (p :: hs ++ [r])) = 0 ∧
    longTones (trace fade s (p :: hs ++ [r])) = 0 := by
  obtain ⟨hpr, hbetween⟩ := session_times p hs r hmono
  have hno : reaches (millis p.now) hs = false := by
    apply reaches_false_of_short
    intro x hx
    obtain ⟨h1, h2⟩ := hbetween x hx
    rw [sub32_millis _ _ h1]
    exact lt_of_le_of_lt (Nat.mod_le _ _) (by omega)
  have hrel : sub32 (millis r.now) (millis p.now) < 1500 := by
    rw [sub32_millis _ _ hpr]
    exact lt_of_le_of_lt (Nat.mod_le _ _) hshort
  obtain ⟨-, -, o3, -, o5, o6, o7⟩ := session_open fade s p hs hidle hp hh
  obtain ⟨c1, c2⟩ := session_close fade s p hs r hidle hp hh hr
  rw [hno] at c1 o6 o7
  simp only [Bool.not_false, Bool.true_and, hrel, decide_True] at c1
  obtain ⟨-, -, -, t4, t5, t6, t7⟩ := tick_action fade (run fade s (p :: hs)) r
  obtain ⟨-, m2, -⟩ := tick_mode fade (run fade s (p :: hs)) r
  rw [c1] at t4 t5 m2
  rw [c2] at t6 t7
  rw [o3] at t4
  rw [trace_snoc, shortPresses_append, longPresses_append, longTones_append,
    t5, t6, t7, o5, o6, o7, m2, t4]
  simp

/-- Witness for C2: a press from 1000 ms to 1024 ms after power-on. -/
theorem short_press_session_witness :
    (idleAt 1024).now - (actionAt 1000).now < 1500 ∧
    shortPresses (trace sampleFade setup.1 (actionAt 1000 :: heldShort ++ [idleAt 1024])) = 1 ∧
    longPresses (trace sampleFade setup.1 (actionAt 1000 :: heldShort ++ [idleAt 1024])) = 0 :=
  have h := short_press_session sampleFade setup.1 (actionAt 1000) heldShort (idleAt 1024)
    (by decide) (by decide) (by decide) (by decide) (by decide) (by decide)
  ⟨by decide, h.2.2.2.1, h.2.2.2.2.1⟩

/-- C3, amended (long press). In a press session with monotone timestamps whose
release pass comes at least 1500 ms (and less than 2^32 ms) after the opening
pass, no ShortPress fires; at most one LongPress fires, each with its tone; one
fires exactly when some pass that still reads the pin LOW has
`now - start >= 1500`; and a pass in which it fires has `now - start >= 1500`. -/
theorem long_press_session (fade : Nat → Nat → Nat) (s : State) (p : TickInput)
    (hs : List TickInput) (r : TickInput)
    (hidle : s.actionPressed = false) (hp : p.actionLow = true)
    (hh : ∀ h ∈ hs, h.actionLow = true) (hr : r.actionLow = false)
    (hmono : List.Pairwise (· ≤ ·) (List.map TickInput.now (p :: hs ++ [r])))
    (hlong : 1500 ≤ r.now - p.now) (hword : r.now - p.now < WORD) :
    shortPresses (trace fade s (p :: hs ++ [r])) = 0 ∧
    longPresses (trace fade s (p :: hs ++ [r])) ≤ 1 ∧
    longTones (trace fade s (p :: hs ++ [r])) = longPresses (trace fade s (p :: hs ++ [r])) ∧
    (longPresses (trace fade s (p :: hs ++ [r])) = 1 ↔ ∃ h ∈ hs, 1500 ≤ h.now - p.now) ∧
    (∀ a h b, hs = a ++ h :: b →
      longPresses (loop fade (run fade s (p :: a)) h).2 = 1 → 1500 ≤ h.now - p.now) := by
  obtain ⟨hpr, hbetween⟩ := session_times p hs r hmono
  obtain ⟨n1, n2, n3, -⟩ := session_counts fade s p hs r hidle hp hh hr
  have hrel : ¬ sub32 (millis r.now) (millis p.now) < 1500 := by
    rw [sub32_millis _ _ hpr, Nat.mod_eq_of_lt hword]; omega
  have hsub : ∀ h ∈ hs, sub32 (millis h.now) (millis p.now) = h.now - p.now := by
    intro h hm
    obtain ⟨h1, h2⟩ := hbetween h hm
    rw [sub32_millis _ _ h1]
    exact Nat.mod_eq_of_lt (by omega)
  have hiff : reaches (millis p.now) hs = true ↔ ∃ h ∈ hs, 1500 ≤ h.now - p.now := by
    rw [reaches_iff]
    constructor
    · rintro ⟨h, hm, hge⟩; exact ⟨h, hm, by rw [hsub h hm] at hge; exact hge⟩
    · rintro ⟨h, hm, hge⟩; exact ⟨h, hm, by rw [hsub h hm]; exact hge⟩
  refine ⟨?_, ?_, ?_, ?_, ?_⟩
  · rw [n3]; simp [hrel]
  · rw [n1]; split_ifs <;> omega
  · rw [n1, n2]
  · rw [n1, ← hiff]; split_ifs with hc <;> simp [hc]
  · intro a h b hab hfire
    have hha : ∀ x ∈ a, x.actionLow = true := fun x hx => hh x (by rw [hab]; simp [hx])
    have hmem : h ∈ hs := by rw [hab]; simp
    obtain ⟨-, o2, -⟩ := session_open fade s p a hidle hp hha
    obtain ⟨-, -, -, -, -, t6, -⟩ := tick_action fade (run fade s (p :: a)) h
    rw [t6] at hfire
    have hf : longFires (run fade s (p :: a)) h = true := by
      by_contra hc
      simp [hc] at hfire
    simp only [longFires, Bool.and_eq_true, decide_eq_true_eq, o2] at hf
    rw [hsub h hmem] at hf
    exact hf.2

/-- Counterexample to C3 as stated: the action button goes down at 100 ms; at
108 ms the mode button is pressed and held until 1700 ms, so the next pass
starts at 1708 ms and reads the action pin HIGH. The press lasted 1608 ms and
no LongPress and no tone was ever produced. -/
theorem long_press_missed :
    setup.1.actionPressed = false ∧ (actionAt 100).actionLow = true ∧
    (∀ h ∈ heldBlocked, h.actionLow = true) ∧ (idleAt 1708).actionLow = false ∧
    List.Pairwise (· ≤ ·) (List.map TickInput.now (actionAt 100 :: heldBlocked ++ [idleAt 1708])) ∧
    1500 ≤ (idleAt 1708).now - (actionAt 100).now ∧
    longPresses (trace sampleFade setup.1 (actionAt 100 :: heldBlocked ++ [idleAt 1708])) = 0 ∧
    longTones (trace sampleFade setup.1 (actionAt 100 :: heldBlocked ++ [idleAt 1708])) = 0 := by
  decide

/-- Witness for C3 amended: the pin is sampled LOW 1504 ms after the press. -/
theorem long_press_session_witness :
    1500 ≤ (idleAt 2812).now - (actionAt 1000).now ∧
    longPresses (trace sampleFade setup.1 (actionAt 1000 :: heldLong ++ [idleAt 2812])) = 1 ∧
    shortPresses (trace sampleFade setup.1 (actionAt 1000 :: heldLong ++ [idleAt 2812])) = 0 :=
  have h := long_press_session sampleFade setup.1 (actionAt 1000) heldLong (idleAt 2812)
    (by decide) (by decide) (by decide) (by decide) (by decide) (by decide) (by decide)
  ⟨by decide, h.2.2.2.1.mpr ⟨actionAt 2504, by decide, by decide⟩, h.1⟩

/-- C4 (one event per cycle). In every press/release cycle of the action button,
whatever the timestamps: at most one LongPress (and tone), at most one
ShortPress, and never both; once `longPressDone` is set, the release fires no
ShortPress and leaves `ledManualState` as it was when the session opened. -/
theorem press_events_exclusive (fade : Nat → Nat → Nat) (s : State) (p : TickInput)
    (hs : List TickInput) (r : TickInput)
    (hidle : s.actionPressed = false) (hp : p.actionLow = true)
    (hh : ∀ h ∈ hs, h.actionLow = true) (hr : r.actionLow = false) :
    longPresses (trace fade s (p :: hs ++ [r])) ≤ 1 ∧
    longTones (trace fade s (p :: hs ++ [r])) ≤ 1 ∧
    shortPresses (trace fade s (p :: hs ++ [r])) ≤ 1 ∧
    longPresses (trace fade s (p :: hs ++ [r])) + shortPresses (trace fade s (p :: hs ++ [r])) ≤ 1 ∧
    ((run fade s (p :: hs)).longPressDone = true →
      shortPresses (loop fade (run fade s (p :: hs)) r).2 = 0 ∧
      (tick fade (run fade s (p :: hs)) r).ledManualState = s.ledManualState) := by
  obtain ⟨n1, n2, n3, n4⟩ := session_counts fade s p hs r hidle hp hh hr
  obtain ⟨-, -, -, o4, -⟩ := session_open fade s p hs hidle hp hh
  obtain ⟨c1, -⟩ := session_close fade s p hs r hidle hp hh hr
  obtain ⟨-, -, -, -, t5, -⟩ := tick_action fade (run fade s (p :: hs)) r
  rw [n1, n2, n3, n4, o4, t5, c1]
  cases reaches (millis p.now) hs <;>
    cases decide (sub32 (millis r.now) (millis p.now) < 1500) <;> simp

/-- Witness for C4: the long-press session of 1812 ms after power-on. -/
theorem press_events_exclusive_witness :
    longPresses (trace sampleFade setup.1 (actionAt 1000 :: heldLong ++ [idleAt 2812])) +
      shortPresses (trace sampleFade setup.1 (actionAt 1000 :: heldLong ++ [idleAt 2812])) ≤ 1 :=
  (press_events_exclusive sampleFade setup.1 (actionAt 1000) heldLong (idleAt 2812)
    (by decide) (by decide) (by decide) (by decide)).2.2.2.1

/-- C5 (debounce of the mode and boot buttons). With monotone time, a press of
the mode button accepted at pass `a` satisfied the guard
`now - lastModeTime > DEBOUNCE_MS`, stamps `lastModeTime` with the time of the
release that ends it, the stamp stays until the next accepted press, and any
later accepted press `b` has `b.now` more than `DEBOUNCE_MS` after `a.now`; the
same holds for the boot button and `lastBootTime`. -/
theorem debounce_mode_boot (fade : Nat → Nat → Nat) (s : State) (a : TickInput)
    (mid : List TickInput) (b : TickInput) (t0 : Nat)
    (htime : Timeline t0 (a :: mid ++ [b])) :
    (modeAccepted s a = true →
      DEBOUNCE_MS < sub32 (millis a.now) s.lastModeTime ∧
      (tick fade s a).lastModeTime = millis a.modeReleasedAt ∧
      (modePresses fade (tick fade s a) mid = 0 →
        (run fade s (a :: mid)).lastModeTime = millis a.modeReleasedAt) ∧
      (modeAccepted (run fade s (a :: mid)) b = true → a.now + DEBOUNCE_MS < b.now)) ∧
    (bootAccepted s a = true →
      DEBOUNCE_MS < sub32 (millis a.now) s.lastBootTime ∧
      (tick fade s a).lastBootTime = millis a.bootReleasedAt ∧
      (noReset fade (tick fade s a) mid →
        (run fade s (a :: mid)).lastBootTime = millis a.bootReleasedAt) ∧
      (bootAccepted (run fade s (a :: mid)) b = true → a.now + DEBOUNCE_MS < b.now)) := by
  simp only [List.cons_append, Timeline, TickInput.ordered] at htime
  obtain ⟨-, ⟨h1, h2, h3⟩, hrest⟩ := htime
  obtain ⟨-, -, m3, m4⟩ := tick_mode fade s a
  constructor
  · intro ha
    rw [if_pos ha] at m3
    refine ⟨?_, m3, ?_, ?_⟩
    · have h := ha; simp only [modeAccepted, Bool.and_eq_true, decide_eq_true_eq] at h; exact h.2
    · intro hz; rw [run, lastModeTime_kept fade mid _ hz, m3]
    · intro hb
      have := mode_gap fade b mid (tick fade s a) a.bootReleasedAt a.modeReleasedAt m3 h3 hrest hb
      omega
  · intro ha
    rw [if_pos ha] at m4
    refine ⟨?_, m4, ?_, ?_⟩
    · have h := ha; simp only [bootAccepted, Bool.and_eq_true, decide_eq_true_eq] at h; exact h.2
    · intro hz; rw [run, lastBootTime_kept fade mid _ hz, m4]
    · intro hb
      have := boot_gap fade b mid (tick fade s a) a.bootReleasedAt a.bootReleasedAt m4 le_rfl hrest hb
      omega

/-- Witness for C5: both buttons pressed at 100 ms and again at 460 ms. -/
theorem debounce_mode_boot_witness :
    Timeline 0 (bothAt 100 250 400 :: [idleAt 408] ++ [bothAt 460 500 600]) ∧
    modeAccepted setup.1 (bothAt 100 250 400) = true ∧
    modeAccepted (run sampleFade setup.1 (bothAt 100 250 400 :: [idleAt 408]))
      (bothAt 460 500 600) = true ∧
    (bothAt 100 250 400).now + DEBOUNCE_MS < (bothAt 460 500 600).now :=
  have h := debounce_mode_boot sampleFade setup.1 (bothAt 100 250 400) [idleAt 408]
    (bothAt 460 500 600) 0 (by decide)
  ⟨by decide, by decide, by decide, (h.1 (by decide)).2.2.2 (by decide)⟩

/-- Counterexample to C6 as stated: from power-on the action pin reads LOW at
1000 ms, HIGH at 1008 ms and LOW at 1016 ms. The first pass opens a session,
the second closes it and fires a ShortPress, the third opens a new session
that starts at 1016 ms: three accepted edges, 8 ms apart. -/
theorem action_bounce_accepted :
    (tick sampleFade setup.1 (actionAt 1000)).actionPressed = true ∧
    (run sampleFade setup.1 [actionAt 1000, idleAt 1008]).actionPressed = false ∧
    shortPresses (loop sampleFade (tick sampleFade setup.1 (actionAt 1000)) (idleAt 1008)).2 = 1 ∧
    (run sampleFade setup.1 bounce).actionPressed = true ∧
    (run sampleFade setup.1 bounce).actionPressStart = 1016 ∧
    (idleAt 1008).now - (actionAt 1000).now < DEBOUNCE_MS ∧
    (actionAt 1016).now - (idleAt 1008).now < DEBOUNCE_MS := by
  decide

/-- C6, amended (the action button is not debounced). After every pass the
session flag `actionPressed` equals the level sampled in that pass, whatever
the time since the last edge: a press edge is accepted in every pass that
reads LOW with no session open, and records `now` as the start of the session,
and a release edge in every pass that reads HIGH with a session open. -/
theorem action_button_undebounced (fade : Nat → Nat → Nat) (s : State) (inp : TickInput) :
    (tick fade s inp).actionPressed = inp.actionLow ∧
    (tick fade s inp).actionPressStart =
      (if inp.actionLow && !s.actionPressed then millis inp.now else s.actionPressStart) :=
  ⟨(tick_action fade s inp).1, (tick_action fade s inp).2.1⟩

/-- C7, amended (reset). In a pass that enters the boot-button block, the mode is
Off and the override is off right after that block, and the mode is still Off
at the end of the pass; the override at the end of the pass is on exactly when
the action-button block of the same pass fires a ShortPress, so it is off
whenever the pass fires none. -/
theorem reset_forces_off (fade : Nat → Nat → Nat) (s : State) (inp : TickInput)
    (hreset : bootAccepted s inp = true) :
    (bootButton (modeButton s inp).1 inp).1.currentEffect = EFFECT_OFF ∧
    (bootButton (modeButton s inp).1 inp).1.manualMode = false ∧
    (tick fade s inp).currentEffect = EFFECT_OFF ∧
    (tick fade s inp).manualMode = shortFires s inp ∧
    (shortPresses (loop fade s inp).2 = 0 → (tick fade s inp).manualMode = false) := by
  obtain ⟨c1, c2, -⟩ := bootButton_state (modeButton s inp).1 inp
  obtain ⟨t1, t2, -⟩ := tick_mode fade s inp
  have t5 := (tick_action fade s inp).2.2.2.2.1
  rw [bootAccepted_modeButton, if_pos hreset] at c1 c2
  rw [if_pos hreset] at t1 t2
  rw [Bool.false_or] at t2
  refine ⟨c1, c2, t1, t2, ?_⟩
  intro h0
  rw [t5] at h0
  rw [t2]
  by_contra hc
  simp only [Bool.not_eq_false] at hc
  rw [if_pos hc] at h0
  omega

/-- Counterexample to C7 as stated: the action button is down since 1000 ms; the
pass at 1008 ms finds the boot button down, resets, waits for its release, and
then reads the action pin HIGH: the short press switches the override on
again in the same pass. -/
theorem reset_then_short_press :
    bootAccepted pressedState (bootAt 1008 1300) = true ∧
    (tick sampleFade pressedState (bootAt 1008 1300)).currentEffect = EFFECT_OFF ∧
    (tick sampleFade pressedState (bootAt 1008 1300)).manualMode = true := by
  decide

/-- Witness for C7 amended: a reset from Alternate mode with the override on. -/
theorem reset_forces_off_witness :
    overrideState.currentEffect = EFFECT_ALTERNATE ∧ overrideState.manualMode = true ∧
    bootAccepted overrideState (bootAt 400 500) = true ∧
    (tick sampleFade overrideState (bootAt 400 500)).currentEffect = EFFECT_OFF ∧
    (tick sampleFade overrideState (bootAt 400 500)).manualMode = false :=
  have h := reset_forces_off sampleFade overrideState (bootAt 400 500) (by decide)
  ⟨by decide, by decide, by decide, h.2.2.1, h.2.2.2.2 (by decide)⟩

/-- C8 (postcondition of `setMode`). After `setMode(m)` from any state,
`currentEffect = m` and `manualMode = false`; for Off the three LED channels
are written 0 and for AllOn they are written 255. -/
theorem setMode_post (s : State) (m : LedEffectMode) (t : Nat) :
    (setMode s m t).1.currentEffect = m ∧ (setMode s m t).1.manualMode = false ∧
    ((setMode s EFFECT_OFF t).1.dutyR = 0 ∧ (setMode s EFFECT_OFF t).1.dutyG = 0 ∧
      (setMode s EFFECT_OFF t).1.dutyY = 0 ∧
      (setMode s EFFECT_OFF t).2 =
        [Out.display .modeOff, Out.ledc CH_R 0, Out.ledc CH_G 0, Out.ledc CH_Y 0]) ∧
    ((setMode s EFFECT_ALL_ON t).1.dutyR = 255 ∧ (setMode s EFFECT_ALL_ON t).1.dutyG = 255 ∧
      (setMode s EFFECT_ALL_ON t).1.dutyY = 255 ∧
      (setMode s EFFECT_ALL_ON t).2 =
        [Out.display .modeAllOn, Out.ledc CH_R 255, Out.ledc CH_G 255, Out.ledc CH_Y 255]) := by
  refine ⟨(setMode_frame s m t).1, (setMode_frame s m t).2.1, ?_, ?_⟩ <;>
    simp [setMode, writeLeds]

/-- C9 (manual override invariant). In every state reachable from power-on, if a
pass ends with `manualMode` set, the rendering block wrote nothing during that
pass and the three LED duties are equal: 255 if `ledManualState` is set and 0
otherwise. -/
theorem manual_override_invariant (fade : Nat → Nat → Nat) (s : State) (inp : TickInput)
    (hreach : Reachable fade s) (hman : (tick fade s inp).manualMode = true) :
    renderOut fade s inp = [] ∧
    (tick fade s inp).dutyR = manualLevel (tick fade s inp).ledManualState ∧
    (tick fade s inp).dutyG = manualLevel (tick fade s inp).ledManualState ∧
    (tick fade s inp).dutyY = manualLevel (tick fade s inp).ledManualState :=
  ⟨(tick_manual fade s inp hman).1,
    manualInv_tick fade s inp (manualInv_reachable fade s hreach) hman⟩

/-- Witness for C9: the pass that ends a short press begun at power-on. -/
theorem manual_override_invariant_witness :
    (tick sampleFade pressedState (idleAt 1008)).manualMode = true ∧
    renderOut sampleFade pressedState (idleAt 1008) = [] ∧
    (tick sampleFade pressedState (idleAt 1008)).dutyR =
      manualLevel (tick sampleFade pressedState (idleAt 1008)).ledManualState :=
  have h := manual_override_invariant sampleFade pressedState (idleAt 1008)
    (Reachable.pass _ _ Reachable.powerOn) (by decide)
  ⟨by decide, h.1, h.2.1⟩

/-- C10 (toggle pair). If a ShortPress fires in pass `a`, none fires during
`mid` and one fires in pass `b`, then `ledManualState` is negated after `a`,
stays negated through `mid`, and is back at its first value after `b`, where
the override is on and all three LED duties are 255 if that first value was on
and 0 if it was off. -/
theorem manual_toggle_pair (fade : Nat → Nat → Nat) (s : State) (a : TickInput)
    (mid : List TickInput) (b : TickInput)
    (ha : shortPresses (loop fade s a).2 = 1)
    (hmid : shortPresses (trace fade (tick fade s a) mid) = 0)
    (hb : shortPresses (loop fade (run fade s (a :: mid)) b).2 = 1) :
    (tick fade s a).ledManualState = (!s.ledManualState) ∧
    (run fade s (a :: mid)).ledManualState = (!s.ledManualState) ∧
    (run fade s (a :: mid ++ [b])).ledManualState = s.ledManualState ∧
    (run fade s (a :: mid ++ [b])).manualMode = true ∧
    (run fade s (a :: mid ++ [b])).dutyR = (if s.ledManualState then 255 else 0) ∧
    (run fade s (a :: mid ++ [b])).dutyG = (if s.ledManualState then 255 else 0) ∧
    (run fade s (a :: mid ++ [b])).dutyY = (if s.ledManualState then 255 else 0) := by
  have fa := shortFires_of_count fade s a ha
  have fb := shortFires_of_count fade _ b hb
  have la : (tick fade s a).ledManualState = (!s.ledManualState) := by
    rw [(tick_action fade s a).2.2.2.1, fa, Bool.xor_true]
  have lm : (run fade s (a :: mid)).ledManualState = (!s.ledManualState) := by
    rw [run, ledManualState_kept fade mid _ hmid, la]
  have hrun : run fade s (a :: mid ++ [b]) = tick fade (run fade s (a :: mid)) b :=
    run_snoc fade (a :: mid) b s
  have hman : (tick fade (run fade s (a :: mid)) b).manualMode = true := by
    rw [(tick_mode fade _ b).2.1, fb, Bool.or_true]
  obtain ⟨-, hcase⟩ := tick_manual fade _ b hman
  rcases hcase with ⟨-, d1, d2, d3⟩ | ⟨hf, -⟩
  · rw [lm, Bool.not_not] at d1 d2 d3
    rw [hrun, (tick_action fade _ b).2.2.2.1, fb, lm]
    refine ⟨la, rfl, by simp, hman, d1, d2, d3⟩
  · rw [fb] at hf; exact Bool.noConfusion hf

/-- Witness for C10: two short presses in a row after power-on. -/
theorem manual_toggle_pair_witness :
    (tick sampleFade pressedState (idleAt 1008)).ledManualState = (!pressedState.ledManualState) ∧
    (run sampleFade pressedState (idleAt 1008 :: [actionAt 1016] ++ [idleAt 1024])).ledManualState
      = pressedState.ledManualState :=
  have h := manual_toggle_pair sampleFade pressedState (idleAt 1008) [actionAt 1016] (idleAt 1024)
    (by decide) (by decide) (by decide)
  ⟨h.1, h.2.2.1⟩

/-- C11, amended (fade golden frame). In a pass that renders Fade with the
override off and elapsed time 0 since the anchor, for intensities that are the
truncations of the fade formula over the reals, the three channels are written
127, 237 and 17: channel 0 sits at mid-scale, channel 1 near the top and
channel 2 near the bottom of the range. -/
theorem fade_golden_frame (fade : Nat → Nat → Nat) (s : State) (inp : TickInput)
    (hmode : (preRender s inp).currentEffect = EFFECT_FADE)
    (hman : (preRender s inp).manualMode = false)
    (hzero : sub32 (millis inp.now) (preRender s inp).fadeTime = 0)
    (hfade : ∀ k, k < 3 → FadeTrunc k 0 (fade k 0)) :
    renderOut fade s inp = [Out.ledc CH_R 127, Out.ledc CH_G 237, Out.ledc CH_Y 17] ∧
    (tick fade s inp).dutyR = 127 ∧ (tick fade s inp).dutyG = 237 ∧
    (tick fade s inp).dutyY = 17 := by
  have h0 := fadeTrunc_unique 0 0 _ _ (hfade 0 (by decide)) fadeTrunc_zero_R
  have h1 := fadeTrunc_unique 1 0 _ _ (hfade 1 (by decide)) fadeTrunc_zero_G
  have h2 := fadeTrunc_unique 2 0 _ _ (hfade 2 (by decide)) fadeTrunc_zero_Y
  rw [tick_eq_render, renderOut_eq, ledBehavior_fade fade _ inp hmode hman, hzero]
  simp [writeLeds, h0, h1, h2]

/-- Counterexample to C11 as stated: at elapsed time 0 the truncated
intensities of channels 1 and 2 are 237 and 17; neither is within 1 of 221. -/
theorem fade_golden_not_221 :
    FadeTrunc 1 0 237 ∧ FadeTrunc 2 0 17 ∧
    (¬ ∃ n, FadeTrunc 1 0 n ∧ 220 ≤ n ∧ n ≤ 222) ∧
    (¬ ∃ n, FadeTrunc 2 0 n ∧ 220 ≤ n ∧ n ≤ 222) := by
  refine ⟨fadeTrunc_zero_G, fadeTrunc_zero_Y, ?_, ?_⟩
  · rintro ⟨n, hn, h1, h2⟩
    have := fadeTrunc_unique 1 0 n 237 hn fadeTrunc_zero_G
    omega
  · rintro ⟨n, hn, h1, h2⟩
    have := fadeTrunc_unique 2 0 n 17 hn fadeTrunc_zero_Y
    omega

/-- Witness for C11 amended: the pass that activates Fade at 2000 ms. -/
theorem fade_golden_frame_witness :
    (preRender beforeFade (modeAt 2000 2100)).currentEffect = EFFECT_FADE ∧
    renderOut goldenFade beforeFade (modeAt 2000 2100) =
      [Out.ledc CH_R 127, Out.ledc CH_G 237, Out.ledc CH_Y 17] :=
  ⟨by decide,
    (fade_golden_frame goldenFade beforeFade (modeAt 2000 2100) (by decide) (by decide)
      (by decide)
      (fun k hk => by
        interval_cases k
        · exact fadeTrunc_zero_R
        · exact fadeTrunc_zero_G
        · exact fadeTrunc_zero_Y)).1⟩

/-- C12 (fade formula and range). In a pass that renders Fade with the
override off, with `e = ((now - fadeTime) mod 2^32) mod 2000` and intensities
that are the truncations of the fade formula over the reals at `e`: `e` is
below 2000, the three channels are written those intensities, each is at most
255 and equals the floor of the non-negative value `255 * (sin(..) + 1) / 2`;
truncation is not rounding, since at `e = 0` channel 0 is 127 while the
rounded value is 128. -/
theorem fade_formula_range (fade : Nat → Nat → Nat) (s : State) (inp : TickInput)
    (hmode : (preRender s inp).currentEffect = EFFECT_FADE)
    (hman : (preRender s inp).manualMode = false)
    (hfade : ∀ k, k < 3 →
      FadeTrunc k (sub32 (millis inp.now) (preRender s inp).fadeTime % 2000)
        (fade k (sub32 (millis inp.now) (preRender s inp).fadeTime % 2000))) :
    sub32 (millis inp.now) (preRender s inp).fadeTime % 2000 < 2000 ∧
    renderOut fade s inp =
      [Out.ledc CH_R (fade 0 (sub32 (millis inp.now) (preRender s inp).fadeTime % 2000)),
       Out.ledc CH_G (fade 1 (sub32 (millis inp.now) (preRender s inp).fadeTime % 2000)),
       Out.ledc CH_Y (fade 2 (sub32 (millis inp.now) (preRender s inp).fadeTime % 2000))] ∧
    (∀ k, k < 3 → fade k (sub32 (millis inp.now) (preRender s inp).fadeTime % 2000) ≤ 255) ∧
    (∀ k, k < 3 → ∀ v, IsFadeVal k (sub32 (millis inp.now) (preRender s inp).fadeTime % 2000) v →
      0 ≤ v * 255 ∧
      (fade k (sub32 (millis inp.now) (preRender s inp).fadeTime % 2000) : ℤ) = ⌊v * 255⌋) ∧
    (∀ n v, FadeTrunc 0 0 n → IsFadeVal 0 0 v → n = 127 ∧ round (v * 255) = 128) := by
  refine ⟨Nat.mod_lt _ (by decide), ?_, ?_, ?_, ?_⟩
  · rw [renderOut_eq, ledBehavior_fade fade _ inp hmode hman]; rfl
  · intro k hk; exact fadeTrunc_le k _ _ (hfade k hk)
  · intro k hk v hv; exact fadeTrunc_floor k _ _ v (hfade k hk) hv
  · intro n v hn hv
    refine ⟨fadeTrunc_unique 0 0 n 127 hn fadeTrunc_zero_R, ?_⟩
    have hv2 : v = 1 / 2 := by rw [hv, isFadeVal_zero_R]
    rw [hv2, round_eq, Int.floor_eq_iff]
    constructor <;> norm_num

/-- Witness for C12: the pass that activates Fade at 2000 ms. -/
theorem fade_formula_range_witness :
    renderOut goldenFade beforeFade (modeAt 2000 2100) =
      [Out.ledc CH_R (goldenFade 0 0), Out.ledc CH_G (goldenFade 1 0),
       Out.ledc CH_Y (goldenFade 2 0)] ∧
    goldenFade 1 0 ≤ 255 :=
  have h := fade_formula_range goldenFade beforeFade (modeAt 2000 2100) (by decide) (by decide)
    (fun k hk => by
      interval_cases k
      · exact fadeTrunc_zero_R
      · exact fadeTrunc_zero_G
      · exact fadeTrunc_zero_Y)
  ⟨h.2.1, h.2.2.1 1 (by decide)⟩

/-- C13, amended (alternate lit order). Counting from power-on, the pass that
makes the n-th toggle into the lit phase (n = 1, 2, 3, ...) leaves `ledIndex`
at n mod 3 and lights only that channel: the lit phases light the channels
1, 2, 0, 1, ... in that order, so the first one lights CH_G, the second CH_Y
and the third CH_R. -/
theorem alternate_lit_order (fade : Nat → Nat → Nat) (inps : List TickInput) (inp : TickInput)
    (hlit : litToggle (run fade setup.1 inps) inp = true) :
    (tick fade (run fade setup.1 inps) inp).ledIndex = (litCount fade setup.1 inps + 1) % 3 ∧
    renderOut fade (run fade setup.1 inps) inp =
      [Out.ledc CH_R (if (litCount fade setup.1 inps + 1) % 3 = 0 then 255 else 0),
       Out.ledc CH_G (if (litCount fade setup.1 inps + 1) % 3 = 1 then 255 else 0),
       Out.ledc CH_Y (if (litCount fade setup.1 inps + 1) % 3 = 2 then 255 else 0)] := by
  have hrun := run_ledIndex fade inps setup.1 (by decide)
  have h0 : setup.1.ledIndex = 0 := rfl
  rw [h0, Nat.zero_add] at hrun
  have hidx : ((run fade setup.1 inps).ledIndex + 1) % 3 = (litCount fade setup.1 inps + 1) % 3 := by
    rw [hrun]; omega
  have hl := hlit
  simp only [litToggle, Bool.and_eq_true, Bool.not_eq_true', decide_eq_true_eq] at hl
  obtain ⟨⟨⟨hman, hmode⟩, hgap⟩, hflag⟩ := hl
  have hr := ledBehavior_alternate fade _ inp hmode hman
  rw [if_pos hgap, if_pos hflag, preRender_ledIndex, hidx] at hr
  refine ⟨?_, ?_⟩
  · rw [tick_ledIndex, if_pos hlit, hidx]
  · rw [renderOut_eq, hr]; rfl

/-- Counterexample to C13 as stated: Alternate is activated at 100 ms after
power-on and the pass at 500 ms makes the first toggle into the lit phase; it
lights channel 1 (CH_G), not channel 0. -/
theorem first_lit_is_green :
    litCount sampleFade setup.1 [modeAt 100 200] = 0 ∧
    litToggle (run sampleFade setup.1 [modeAt 100 200]) (idleAt 500) = true ∧
    renderOut sampleFade (run sampleFade setup.1 [modeAt 100 200]) (idleAt 500) =
      [Out.ledc CH_R 0, Out.ledc CH_G 255, Out.ledc CH_Y 0] := by
  decide

/-- Witness for C13 amended: the second lit phase after power-on lights CH_Y. -/
theorem alternate_lit_order_witness :
    litCount sampleFade setup.1 [modeAt 100 200, idleAt 500, idleAt 900] + 1 = 2 ∧
    renderOut sampleFade (run sampleFade setup.1 [modeAt 100 200, idleAt 500, idleAt 900])
        (idleAt 1300) =
      [Out.ledc CH_R (if (litCount sampleFade setup.1
          [modeAt 100 200, idleAt 500, idleAt 900] + 1) % 3 = 0 then 255 else 0),
       Out.ledc CH_G (if (litCount sampleFade setup.1
          [modeAt 100 200, idleAt 500, idleAt 900] + 1) % 3 = 1 then 255 else 0),
       Out.ledc CH_Y (if (litCount sampleFade setup.1
          [modeAt 100 200, idleAt 500, idleAt 900] + 1) % 3 = 2 then 255 else 0)] :=
  ⟨by decide,
    (alternate_lit_order sampleFade [modeAt 100 200, idleAt 500, idleAt 900] (idleAt 1300)
      (by decide)).2⟩

/-- C14 (alternate lit phase). From every state reachable from power-on, if a
pass ends in Alternate mode with the override off and `blinkFlag` set, exactly
one of the three LED duties is 255 and the other two are 0. -/
theorem alternate_lit_one_hot (fade : Nat → Nat → Nat) (s : State) (inp : TickInput)
    (hreach : Reachable fade s)
    (hmode : (tick fade s inp).currentEffect = EFFECT_ALTERNATE)
    (hman : (tick fade s inp).manualMode = false)
    (hlit : (tick fade s inp).blinkFlag = true) :
    ((tick fade s inp).dutyR = 255 ∧ (tick fade s inp).dutyG = 0 ∧ (tick fade s inp).dutyY = 0) ∨
    ((tick fade s inp).dutyR = 0 ∧ (tick fade s inp).dutyG = 255 ∧ (tick fade s inp).dutyY = 0) ∨
    ((tick fade s inp).dutyR = 0 ∧ (tick fade s inp).dutyG = 0 ∧ (tick fade s inp).dutyY = 255) := by
  obtain ⟨hlt, hr, hg, hy⟩ :=
    litInv_tick fade s inp (litInv_reachable fade s hreach) hmode hman hlit
  rw [hr, hg, hy]
  generalize (tick fade s inp).ledIndex = i at hlt
  interval_cases i <;> simp

/-- Witness for C14: the first lit phase after power-on. -/
theorem alternate_lit_one_hot_witness :
    (tick sampleFade firstAlt (idleAt 500)).blinkFlag = true ∧
    (((tick sampleFade firstAlt (idleAt 500)).dutyR = 255 ∧
        (tick sampleFade firstAlt (idleAt 500)).dutyG = 0 ∧
        (tick sampleFade firstAlt (idleAt 500)).dutyY = 0) ∨
      ((tick sampleFade firstAlt (idleAt 500)).dutyR = 0 ∧
        (tick sampleFade firstAlt (idleAt 500)).dutyG = 255 ∧
        (tick sampleFade firstAlt (idleAt 500)).dutyY = 0) ∨
      ((tick sampleFade firstAlt (idleAt 500)).dutyR = 0 ∧
        (tick sampleFade firstAlt (idleAt 500)).dutyG = 0 ∧
        (tick sampleFade firstAlt (idleAt 500)).dutyY = 255)) :=
  ⟨by decide,
    alternate_lit_one_hot sampleFade firstAlt (idleAt 500)
      (Reachable.pass _ _ Reachable.powerOn) (by decide) (by decide) (by decide)⟩

/-- C15, amended (alternate off phase). From every state reachable from
power-on, if a pass ends in Alternate mode with the override off and
`blinkFlag` clear, the three LED duties are equal: all 0, or all 255 with
`ledManualState` set; they are all 0 whenever the rendering block wrote in
that pass (a toggle into the off phase). `setMode(EFFECT_ALTERNATE)` writes no
LED channel, so the off phase that follows an activation keeps the duties the
LEDs had before. -/
theorem alternate_off_phase (fade : Nat → Nat → Nat) (s : State) (inp : TickInput)
    (hreach : Reachable fade s)
    (hmode : (tick fade s inp).currentEffect = EFFECT_ALTERNATE)
    (hman : (tick fade s inp).manualMode = false)
    (hoff : (tick fade s inp).blinkFlag = false) :
    (allAt (tick fade s inp) 0 ∨
      (allAt (tick fade s inp) 255 ∧ (tick fade s inp).ledManualState = true)) ∧
    (renderOut fade s inp ≠ [] → allAt (tick fade s inp) 0) ∧
    (setMode s EFFECT_ALTERNATE inp.modeSetAt).1.dutyR = s.dutyR ∧
    (setMode s EFFECT_ALTERNATE inp.modeSetAt).1.dutyG = s.dutyG ∧
    (setMode s EFFECT_ALTERNATE inp.modeSetAt).1.dutyY = s.dutyY ∧
    (setMode s EFFECT_ALTERNATE inp.modeSetAt).2 = [Out.display .modeAlternate] := by
  refine ⟨(offInv_tick fade s inp (offInv_reachable fade s hreach)).2 hmode hman hoff, ?_,
    rfl, rfl, rfl, rfl⟩
  intro hne
  rw [tick_eq_render] at hmode hman hoff ⊢
  rw [renderOut_eq] at hne
  have hm : (preRender s inp).currentEffect = EFFECT_ALTERNATE := by
    rw [← (ledBehavior_frame fade _ inp).1]; exact hmode
  have hn : (preRender s inp).manualMode = false := by
    rw [← (ledBehavior_frame fade _ inp).2.1]; exact hman
  rw [ledBehavior_alternate fade _ inp hm hn] at hoff hne ⊢
  generalize preRender s inp = q at hoff hne ⊢
  by_cases h1 : BLINK_GAP ≤ sub32 (millis inp.now) q.blinkTime
  · cases hb : q.blinkFlag
    · simp [h1, hb, writeLeds] at hoff
    · simp [h1, hb, writeLeds, allAt]
  · simp [h1] at hne

/-- Counterexample to C15 as stated: a short press in Off mode lights the three
LEDs, then the mode button activates Alternate at 200 ms; the pass ends in
Alternate mode, override off, `blinkFlag` clear, with all three duties 255. -/
theorem off_phase_keeps_manual_level :
    (run sampleFade setup.1 staleLeds).currentEffect = EFFECT_ALTERNATE ∧
    (run sampleFade setup.1 staleLeds).manualMode = false ∧
    (run sampleFade setup.1 staleLeds).blinkFlag = false ∧
    (run sampleFade setup.1 staleLeds).dutyR = 255 ∧
    (run sampleFade setup.1 staleLeds).dutyG = 255 ∧
    (run sampleFade setup.1 staleLeds).dutyY = 255 := by
  decide

/-- Witness for C15 amended: Alternate activated from Off right after power-on. -/
theorem alternate_off_phase_witness :
    (tick sampleFade setup.1 (modeAt 100 200)).currentEffect = EFFECT_ALTERNATE ∧
    (allAt (tick sampleFade setup.1 (modeAt 100 200)) 0 ∨
      (allAt (tick sampleFade setup.1 (modeAt 100 200)) 255 ∧
        (tick sampleFade setup.1 (modeAt 100 200)).ledManualState = true)) :=
  ⟨by decide,
    (alternate_off_phase sampleFade setup.1 (modeAt 100 200) Reachable.powerOn
      (by decide) (by decide) (by decide)).1⟩

/-- C16 (alternate anchor timing), the code at the failing input: the mode
button is found down at `now = 100` and `setMode` reads `millis() = 130` for
the anchor. The unsigned difference `now - blinkTime` is 4294967266, which is
at least `BLINK_GAP`, so the same pass toggles into the lit phase, lights CH_G
and moves the anchor back to 100. -/
theorem alternate_activation_underflow :
    activationLate.now ≤ activationLate.modeSetAt ∧
    (preRender setup.1 activationLate).currentEffect = EFFECT_ALTERNATE ∧
    (preRender setup.1 activationLate).blinkTime = 130 ∧
    (preRender setup.1 activationLate).blinkFlag = false ∧
    sub32 (millis activationLate.now) (preRender setup.1 activationLate).blinkTime = 4294967266 ∧
    (tick sampleFade setup.1 activationLate).blinkFlag = true ∧
    (tick sampleFade setup.1 activationLate).blinkTime = 100 ∧
    renderOut sampleFade setup.1 activationLate =
      [Out.ledc CH_R 0, Out.ledc CH_G 255, Out.ledc CH_Y 0] := by
  decide

/-- C17, amended (alternate render). Two states in Alternate mode with the
override off and no press session open, anchored at `a1` and `a2`, that agree
on `blinkFlag` and on `ledIndex`: over passes in which no button is touched
and which see the same elapsed times `es` since the respective anchors, the
two sequences of writes are identical. -/
theorem alternate_render_determined (fade : Nat → Nat → Nat) (a1 a2 : Nat) (es : List Nat)
    (s1 s2 : State)
    (hm1 : s1.currentEffect = EFFECT_ALTERNATE) (hm2 : s2.currentEffect = EFFECT_ALTERNATE)
    (ho1 : s1.manualMode = false) (ho2 : s2.manualMode = false)
    (hp1 : s1.actionPressed = false) (hp2 : s2.actionPressed = false)
    (ha1 : s1.blinkTime = millis a1) (ha2 : s2.blinkTime = millis a2)
    (hflag : s1.blinkFlag = s2.blinkFlag) (hidx : s1.ledIndex = s2.ledIndex) :
    trace fade s1 (idleAfter a1 es) = trace fade s2 (idleAfter a2 es) := by
  have key : ∀ (l : List Nat) (s1 s2 : State), Aligned a1 a2 s1 s2 →
      trace fade s1 (idleAfter a1 l) = trace fade s2 (idleAfter a2 l) := by
    intro l
    induction l with
    | nil => intro _ _ _; rfl
    | cons e rest ih =>
      intro s1 s2 h
      obtain ⟨ho, hn⟩ := aligned_step fade a1 a2 e s1 s2 h
      simp only [idleAfter, List.map_cons, trace] at ih ⊢
      rw [ho, ih _ _ hn]
  exact key es s1 s2 ⟨hm1, hm2, ho1, ho2, hp1, hp2, hflag, hidx, 0, ha1, ha2⟩

/-- Counterexample to C17 as stated: the first activation of Alternate after
power-on and a second one after a full round of the mode button both see the
elapsed times 8 ms and 400 ms; the first lights CH_G, the second CH_Y, because
`ledIndex` survived from the first activation. -/
theorem alternate_render_depends_on_history :
    firstAlt.currentEffect = EFFECT_ALTERNATE ∧ secondAlt.currentEffect = EFFECT_ALTERNATE ∧
    firstAlt.manualMode = false ∧ secondAlt.manualMode = false ∧
    firstAlt.blinkFlag = false ∧ secondAlt.blinkFlag = false ∧
    firstAlt.blinkTime = millis 100 ∧ secondAlt.blinkTime = millis 4000 ∧
    trace sampleFade firstAlt (idleAfter 100 [8, 400]) =
      [Out.ledc CH_R 0, Out.ledc CH_G 255, Out.ledc CH_Y 0] ∧
    trace sampleFade secondAlt (idleAfter 4000 [8, 400]) =
      [Out.ledc CH_R 0, Out.ledc CH_G 0, Out.ledc CH_Y 255] := by
  decide

/-- Witness for C17 amended: two activations that both start with `ledIndex` 0. -/
theorem alternate_render_determined_witness :
    firstAlt.ledIndex = laterAlt.ledIndex ∧
    trace sampleFade firstAlt (idleAfter 100 [8, 400, 800]) =
      trace sampleFade laterAlt (idleAfter 4000 [8, 400, 800]) :=
  ⟨by decide,
    alternate_render_determined sampleFade 100 4000 [8, 400, 800] firstAlt laterAlt
      (by decide) (by decide) (by decide) (by decide) (by decide) (by decide) (by decide)
      (by decide) (by decide) (by decide)⟩

/-- C18 (alternate toggle step). In a pass whose rendering block runs in
Alternate mode with the override off: the phase flag flips exactly when
`now - blinkTime >= BLINK_GAP` (unsigned); a toggle into the lit phase moves
the anchor to `now`, advances `ledIndex` by one modulo 3 and lights only that
channel; a toggle into the off phase moves the anchor, keeps `ledIndex` and
writes 0 to all three channels; without a toggle the rendering block changes
nothing and writes nothing. -/
theorem alternate_toggle_step (fade : Nat → Nat → Nat) (s : State) (inp : TickInput)
    (hmode : (preRender s inp).currentEffect = EFFECT_ALTERNATE)
    (hman : (preRender s inp).manualMode = false) :
    ((tick fade s inp).blinkFlag = (!(preRender s inp).blinkFlag) ↔
      BLINK_GAP ≤ sub32 (millis inp.now) (preRender s inp).blinkTime) ∧
    (BLINK_GAP ≤ sub32 (millis inp.now) (preRender s inp).blinkTime →
      (preRender s inp).blinkFlag = false →
        (tick fade s inp).blinkFlag = true ∧
        (tick fade s inp).blinkTime = millis inp.now ∧
        (tick fade s inp).ledIndex = ((preRender s inp).ledIndex + 1) % 3 ∧
        OneHot (tick fade s inp) ∧
        renderOut fade s inp =
          [Out.ledc CH_R (tick fade s inp).dutyR, Out.ledc CH_G (tick fade s inp).dutyG,
           Out.ledc CH_Y (tick fade s inp).dutyY]) ∧
    (BLINK_GAP ≤ sub32 (millis inp.now) (preRender s inp).blinkTime →
      (preRender s inp).blinkFlag = true →
        (tick fade s inp).blinkFlag = false ∧
        (tick fade s inp).blinkTime = millis inp.now ∧
        (tick fade s inp).ledIndex = (preRender s inp).ledIndex ∧
        allAt (tick fade s inp) 0 ∧
        renderOut fade s inp = [Out.ledc CH_R 0, Out.ledc CH_G 0, Out.ledc CH_Y 0]) ∧
    (¬ BLINK_GAP ≤ sub32 (millis inp.now) (preRender s inp).blinkTime →
      tick fade s inp = preRender s inp ∧ renderOut fade s inp = []) := by
  rw [tick_eq_render, renderOut_eq, ledBehavior_alternate fade _ inp hmode hman]
  generalize preRender s inp = q
  by_cases hg : BLINK_GAP ≤ sub32 (millis inp.now) q.blinkTime
  · cases hb : q.blinkFlag <;>
      simp [hg, hb, writeLeds, OneHot, allAt, Nat.mod_lt]
  · cases hb : q.blinkFlag <;> simp [hg, hb]

/-- Witness for C18: the first toggle after the activation at 100 ms. -/
theorem alternate_toggle_step_witness :
    (tick sampleFade firstAlt (idleAt 500)).blinkFlag = (!(preRender firstAlt (idleAt 500)).blinkFlag)
      ∧ (tick sampleFade firstAlt (idleAt 400)) = preRender firstAlt (idleAt 400) :=
  ⟨(alternate_toggle_step sampleFade firstAlt (idleAt 500) (by decide) (by decide)).1.mpr
      (by decide),
    ((alternate_toggle_step sampleFade firstAlt (idleAt 400) (by decide) (by decide)).2.2.2
      (by decide)).1⟩

/-- C19 (`setMode` keeps `ledManualState`). `setMode` leaves `ledManualState`
as it is, and so does every run of passes without a ShortPress, whatever mode
changes and resets it contains; the first ShortPress after such a run negates
the stored value and shows it: the LEDs go off if the stored value was on and
on if it was off. -/
theorem setMode_keeps_manual_state (fade : Nat → Nat → Nat) (s : State) (m : LedEffectMode)
    (t : Nat) (mid : List TickInput) (b : TickInput)
    (hmid : shortPresses (trace fade s mid) = 0)
    (hb : shortPresses (loop fade (run fade s mid) b).2 = 1) :
    (setMode s m t).1.ledManualState = s.ledManualState ∧
    (run fade s mid).ledManualState = s.ledManualState ∧
    (run fade s (mid ++ [b])).ledManualState = (!s.ledManualState) ∧
    (run fade s (mid ++ [b])).manualMode = true ∧
    allAt (run fade s (mid ++ [b])) (if s.ledManualState then 0 else 255) := by
  have fb := shortFires_of_count fade _ b hb
  have lm := ledManualState_kept fade mid s hmid
  have hman : (tick fade (run fade s mid) b).manualMode = true := by
    rw [(tick_mode fade _ b).2.1, fb, Bool.or_true]
  obtain ⟨-, hcase⟩ := tick_manual fade _ b hman
  refine ⟨(setMode_frame s m t).2.2.2.2.2.1, lm, ?_, ?_, ?_⟩
  · rw [run_snoc, (tick_action fade _ b).2.2.2.1, fb, lm, Bool.xor_true]
  · rw [run_snoc]; exact hman
  · rw [run_snoc]
    rcases hcase with ⟨-, d1, d2, d3⟩ | ⟨hf, -⟩
    · rw [lm] at d1 d2 d3
      cases hl : s.ledManualState <;> simp [hl, manualLevel] at d1 d2 d3 ⊢ <;>
        exact ⟨d1, d2, d3⟩
    · rw [fb] at hf; exact Bool.noConfusion hf

/-- Witness for C19: override on, then a reset, then a short press: the LEDs
go off, not on. -/
theorem setMode_keeps_manual_state_witness :
    litManual.ledManualState = true ∧
    bootAccepted litManual (bootAt 200 300) = true ∧
    allAt (run sampleFade litManual ([bootAt 200 300, actionAt 400] ++ [idleAt 408])) 0 :=
  ⟨by decide, by decide,
    (setMode_keeps_manual_state sampleFade litManual EFFECT_OFF 0 [bootAt 200 300, actionAt 400]
      (idleAt 408) (by decide) (by decide)).2.2.2.2⟩

/-- C20 (constant total brightness). For every elapsed time `e`, if the three
intensities are the truncations of the fade formula over the reals at `e`,
their sum is 380, 381 or 382; the untruncated values sum to exactly 382.5; and
a pass that renders Fade at that elapsed time leaves exactly these three
intensities in the LED channels. -/
theorem fade_total_brightness (fade : Nat → Nat → Nat) (e : Nat)
    (hfade : ∀ k, k < 3 → FadeTrunc k e (fade k e)) :
    (fade 0 e + fade 1 e + fade 2 e = 380 ∨ fade 0 e + fade 1 e + fade 2 e = 381 ∨
      fade 0 e + fade 1 e + fade 2 e = 382) ∧
    (∀ v0 v1 v2, IsFadeVal 0 e v0 → IsFadeVal 1 e v1 → IsFadeVal 2 e v2 →
      v0 * 255 + v1 * 255 + v2 * 255 = 382.5) ∧
    (∀ (s : State) (inp : TickInput), (preRender s inp).currentEffect = EFFECT_FADE →
      (preRender s inp).manualMode = false →
      sub32 (millis inp.now) (preRender s inp).fadeTime % 2000 = e →
        (tick fade s inp).dutyR + (tick fade s inp).dutyG + (tick fade s inp).dutyY
          = fade 0 e + fade 1 e + fade 2 e) := by
  refine ⟨?_, ?_, ?_⟩
  · have := fadeTrunc_sum e _ _ _ (hfade 0 (by decide)) (hfade 1 (by decide))
      (hfade 2 (by decide))
    omega
  · intro v0 v1 v2 h0 h1 h2
    have := isFadeVal_sum e v0 v1 v2 h0 h1 h2
    linarith
  · intro s inp hmode hman he
    rw [tick_eq_render, ledBehavior_fade fade _ inp hmode hman, he]
    rfl

/-- Witness for C20: elapsed time 0, where 127 + 237 + 17 = 381. -/
theorem fade_total_brightness_witness :
    goldenFade 0 0 + goldenFade 1 0 + goldenFade 2 0 = 380 ∨
    goldenFade 0 0 + goldenFade 1 0 + goldenFade 2 0 = 381 ∨
    goldenFade 0 0 + goldenFade 1 0 + goldenFade 2 0 = 382 :=
  (fade_total_brightness goldenFade 0
    (fun k hk => by
      interval_cases k
      · exact fadeTrunc_zero_R
      · exact fadeTrunc_zero_G
      · exact fadeTrunc_zero_Y)).1

end LedController
